import Mathlib

/-!
# Verification of the maximus-client Connection & Authentication Engine

A shallow embedding of the core of `maximus-client` (files
`src/maximus/_internal/connection.py`, `auth_manager.py`, `constants.py`),
with theorems settling the frozen specification claims.

Strings on the wire are modelled as lists of Unicode code points
(`List Nat`), mirroring Python `str`.  JSON values are modelled by the
inductive `MaxClient.Json`; the printer follows `json.dumps` with its
default options (`ensure_ascii=True`, separators `", "` and `": "`) and
the parser follows `json.loads` (strict mode: raw control characters in
strings are rejected; `\uXXXX` escapes combine surrogate pairs).
-/

namespace MaxClient

/-- Unicode code points of a Lean string literal (helper to write the
Python string constants appearing in the source). -/
def cp (s : String) : List Nat := s.toList.map Char.toNat

/-- JSON values (the subset exchanged by the client: Python `None`, `bool`,
`int`, `str`, `list`, `dict`).  Object fields keep insertion order, as
Python dicts do. -/
inductive Json where
  | jnull : Json
  | jbool : Bool → Json
  | jnum : Int → Json
  | jstr : List Nat → Json
  | jarr : List Json → Json
  | jobj : List (List Nat × Json) → Json

namespace Json

/-- Python truthiness of a JSON-shaped value (`if x:`). -/
def truthy : Json → Bool
  | jnull => false
  | jbool b => b
  | jnum n => n != 0
  | jstr s => !s.isEmpty
  | jarr l => !l.isEmpty
  | jobj l => !l.isEmpty

end Json

/-! ## Printer (`json.dumps` with default options) -/

/-- Decimal digits of a natural number, most significant first. -/
def printNat (n : Nat) : List Nat :=
  if n = 0 then [48] else (Nat.digits 10 n).reverse.map (fun d => 48 + d)

/-- Decimal rendering of a Python `int`. -/
def printInt (i : Int) : List Nat :=
  if i < 0 then 45 :: printNat i.natAbs else printNat i.natAbs

/-- Lowercase hex digit, as CPython's `\uXXXX` escapes produce. -/
def hexDigitCp (n : Nat) : Nat := if n < 10 then 48 + n else 87 + n

/-- Four-digit lowercase hex rendering of `n < 0x10000`. -/
def hex4 (n : Nat) : List Nat :=
  [hexDigitCp (n / 4096 % 16), hexDigitCp (n / 256 % 16),
   hexDigitCp (n / 16 % 16), hexDigitCp (n % 16)]

/-- `json.dumps` escaping of one character under `ensure_ascii=True`:
quote and backslash get two-character escapes, the five short control
escapes are used, other controls and all non-ASCII characters become
`\uXXXX` (a surrogate pair beyond the BMP). -/
def escapeCp (c : Nat) : List Nat :=
  if c = 34 then [92, 34]
  else if c = 92 then [92, 92]
  else if c = 8 then [92, 98]
  else if c = 9 then [92, 116]
  else if c = 10 then [92, 110]
  else if c = 12 then [92, 102]
  else if c = 13 then [92, 114]
  else if c < 32 then 92 :: 117 :: hex4 c
  else if c < 127 then [c]
  else if c < 65536 then 92 :: 117 :: hex4 c
  else 92 :: 117 :: (hex4 (55296 + (c - 65536) / 1024) ++
       92 :: 117 :: hex4 (56320 + (c - 65536) % 1024))

/-- Escaped body of a JSON string literal. -/
def escapeStr (s : List Nat) : List Nat := s.flatMap escapeCp

/-- A quoted, escaped JSON string literal. -/
def printStr (s : List Nat) : List Nat := 34 :: escapeStr s ++ [34]

mutual

/-- `json.dumps` of a value (default separators `", "` / `": "`).
The literals spell `null`, `true`, `false` in code points. -/
def printVal : Json → List Nat
  | Json.jnull => [110, 117, 108, 108]
  | Json.jbool true => [116, 114, 117, 101]
  | Json.jbool false => [102, 97, 108, 115, 101]
  | Json.jnum i => printInt i
  | Json.jstr s => printStr s
  | Json.jarr l => 91 :: printItems l ++ [93]
  | Json.jobj l => 123 :: printFields l ++ [125]

/-- Array items joined by `", "`. -/
def printItems : List Json → List Nat
  | [] => []
  | [x] => printVal x
  | x :: y :: t => printVal x ++ 44 :: 32 :: printItems (y :: t)

/-- Object fields `"key": value` joined by `", "`. -/
def printFields : List (List Nat × Json) → List Nat
  | [] => []
  | [(k, v)] => printStr k ++ 58 :: 32 :: printVal v
  | (k, v) :: y :: t =>
      printStr k ++ 58 :: 32 :: printVal v ++ 44 :: 32 :: printFields (y :: t)

end

/-! ## Parser (`json.loads`) -/

/-- JSON whitespace. -/
def isWsCp (c : Nat) : Bool := c = 32 || c = 9 || c = 10 || c = 13

/-- Skip leading whitespace. -/
def skipWs (s : List Nat) : List Nat := s.dropWhile isWsCp

/-- ASCII decimal digit? -/
def isDigitCp (c : Nat) : Bool := 48 ≤ c && c ≤ 57

/-- Value of a most-significant-first digit list. -/
def digitsVal (ds : List Nat) : Nat := ds.foldl (fun a d => a * 10 + d) 0

/-- Greedy parse of a nonempty run of decimal digits. -/
def parseDigits (s : List Nat) : Option (Nat × List Nat) :=
  let ds := s.takeWhile isDigitCp
  if ds.isEmpty then none
  else some (digitsVal (ds.map (fun c => c - 48)), s.dropWhile isDigitCp)

/-- Parse an integer literal (an optional minus sign then digits; the
fractional/exponent forms of JSON numbers do not occur in this protocol
model). -/
def parseNum (s : List Nat) : Option (Int × List Nat) :=
  match s with
  | [] => none
  | c :: r =>
    if c = 45 then (parseDigits r).map (fun p => (-(p.1 : Int), p.2))
    else (parseDigits (c :: r)).map (fun p => ((p.1 : Int), p.2))

/-- Does `c` start a number literal? -/
def isNumStartCp (c : Nat) : Bool := c = 45 || isDigitCp c

/-- Value of one hex digit (both cases accepted, as `json.loads` does). -/
def hexVal (c : Nat) : Option Nat :=
  if 48 ≤ c ∧ c ≤ 57 then some (c - 48)
  else if 97 ≤ c ∧ c ≤ 102 then some (c - 87)
  else if 65 ≤ c ∧ c ≤ 70 then some (c - 55)
  else none

/-- Value of a four-hex-digit escape tail. -/
def hex4Val (a b c d : Nat) : Option Nat :=
  match hexVal a, hexVal b, hexVal c, hexVal d with
  | some x, some y, some z, some w => some (x * 4096 + y * 256 + z * 16 + w)
  | _, _, _, _ => none

/-- Simple escapes `\" \\ \/ \b \t \n \f \r`. -/
def escCharVal (e : Nat) : Option Nat :=
  if e = 34 then some 34
  else if e = 92 then some 92
  else if e = 47 then some 47
  else if e = 98 then some 8
  else if e = 116 then some 9
  else if e = 110 then some 10
  else if e = 102 then some 12
  else if e = 114 then some 13
  else none

/-- Body of a string literal, up to and past the closing quote.  Strict
mode: raw control characters are rejected; `\uXXXX` escapes are decoded,
with a high surrogate immediately followed by an escaped low surrogate
combined into one astral code point (as CPython's decoder does). -/
def parseStrBody : Nat → List Nat → Option (List Nat × List Nat)
  | 0, _ => none
  | _ + 1, [] => none
  | fuel + 1, c :: r =>
    if c = 34 then some ([], r)
    else if c = 92 then
      match r with
      | [] => none
      | e :: r1 =>
        if e = 117 then
          match r1 with
          | h1 :: h2 :: h3 :: h4 :: r2 =>
            match hex4Val h1 h2 h3 h4 with
            | none => none
            | some n =>
              if 55296 ≤ n ∧ n ≤ 56319 then
                match r2 with
                | 92 :: 117 :: g1 :: g2 :: g3 :: g4 :: r3 =>
                  match hex4Val g1 g2 g3 g4 with
                  | some m =>
                    if 56320 ≤ m ∧ m ≤ 57343 then
                      (parseStrBody fuel r3).map
                        (fun p =>
                          ((65536 + (n - 55296) * 1024 + (m - 56320)) :: p.1, p.2))
                    else (parseStrBody fuel r2).map (fun p => (n :: p.1, p.2))
                  | none => (parseStrBody fuel r2).map (fun p => (n :: p.1, p.2))
                | _ => (parseStrBody fuel r2).map (fun p => (n :: p.1, p.2))
              else (parseStrBody fuel r2).map (fun p => (n :: p.1, p.2))
          | _ => none
        else
          match escCharVal e with
          | some c2 => (parseStrBody fuel r1).map (fun p => (c2 :: p.1, p.2))
          | none => none
    else if c < 32 then none
    else (parseStrBody fuel r).map (fun p => (c :: p.1, p.2))

mutual

/-- Parse one JSON value (after skipping leading whitespace). -/
def parseVal : Nat → List Nat → Option (Json × List Nat)
  | 0, _ => none
  | fuel + 1, s =>
    match skipWs s with
    | [] => none
    | c :: r =>
      if isNumStartCp c then
        (parseNum (c :: r)).map (fun p => (Json.jnum p.1, p.2))
      else if c = 34 then
        (parseStrBody fuel r).map (fun p => (Json.jstr p.1, p.2))
      else if c = 91 then
        match skipWs r with
        | 93 :: r2 => some (Json.jarr [], r2)
        | _ => (parseItems fuel r).map (fun p => (Json.jarr p.1, p.2))
      else if c = 123 then
        match skipWs r with
        | 125 :: r2 => some (Json.jobj [], r2)
        | _ => (parseFields fuel r).map (fun p => (Json.jobj p.1, p.2))
      else
        match c :: r with
        | 110 :: 117 :: 108 :: 108 :: r2 => some (Json.jnull, r2)
        | 116 :: 114 :: 117 :: 101 :: r2 => some (Json.jbool true, r2)
        | 102 :: 97 :: 108 :: 115 :: 101 :: r2 => some (Json.jbool false, r2)
        | _ => none

/-- Parse the items of a nonempty array, consuming the closing `]`. -/
def parseItems : Nat → List Nat → Option (List Json × List Nat)
  | 0, _ => none
  | fuel + 1, s =>
    match parseVal fuel s with
    | none => none
    | some (v, r) =>
      match skipWs r with
      | 44 :: r2 => (parseItems fuel r2).map (fun p => (v :: p.1, p.2))
      | 93 :: r2 => some ([v], r2)
      | _ => none

/-- Parse the fields of a nonempty object, consuming the closing `}`. -/
def parseFields : Nat → List Nat → Option (List (List Nat × Json) × List Nat)
  | 0, _ => none
  | fuel + 1, s =>
    match skipWs s with
    | 34 :: r =>
      match parseStrBody fuel r with
      | none => none
      | some (k, r2) =>
        match skipWs r2 with
        | 58 :: r3 =>
          match parseVal fuel r3 with
          | none => none
          | some (v, r4) =>
            match skipWs r4 with
            | 44 :: r5 => (parseFields fuel r5).map (fun p => ((k, v) :: p.1, p.2))
            | 125 :: r5 => some ([(k, v)], r5)
            | _ => none
        | _ => none
    | _ => none

end

/-- `json.loads`: parse a complete document, requiring only trailing
whitespace after the value. -/
def jsonLoads (s : List Nat) : Option Json :=
  match parseVal (s.length + 1) s with
  | some (v, r) => if (skipWs r).isEmpty then some v else none
  | none => none

/-! ## Dictionary access helpers (Python `dict.get`) -/

/-- First-match association lookup (Python dicts have unique keys). -/
def jlookup (l : List (List Nat × Json)) (k : List Nat) : Option Json :=
  match l with
  | [] => none
  | (k', v) :: t => if k' = k then some v else jlookup t k

/-- Python `d.get(k)` on a value that must be a dict: `none` models the
`AttributeError` raised when the receiver is not a dict; a missing key
yields Python `None` (`jnull`). -/
def pyGet (j : Json) (k : List Nat) : Option Json :=
  match j with
  | Json.jobj l => some ((jlookup l k).getD Json.jnull)
  | _ => none

/-- Python `d.get(k, default)`; `none` again models `AttributeError`. -/
def pyGetD (j : Json) (k : List Nat) (d : Json) : Option Json :=
  match j with
  | Json.jobj l => some ((jlookup l k).getD d)
  | _ => none

/-- Python `x == n` for an `int` literal `n` (`True == 1` holds in
Python, so decoded booleans compare equal to 0/1). -/
def pyEqNum (j : Json) (n : Int) : Bool :=
  match j with
  | Json.jnum m => m == n
  | Json.jbool b => (if b then (1 : Int) else 0) == n
  | _ => false

/-- Python `x == s` for a `str` literal `s`. -/
def pyEqStr (j : Json) (s : List Nat) : Bool :=
  match j with
  | Json.jstr t => t == s
  | _ => false

/-- Truthiness of an `Optional[str]` attribute (`if self._phone:`). -/
def optTruthy (o : Option (List Nat)) : Bool :=
  match o with
  | some l => !l.isEmpty
  | none => false

/-! ## Connection model (`MaxConnection`, `connection.py`)

`ConnState` carries the mutable `_seq` counter and the protocol version
read from the session data (`session_data.get("version", 11)`). -/

/-- One protocol envelope, as built by `MaxConnection._create_message`. -/
structure Frame where
  ver : Int
  cmd : Int
  seq : Nat
  opcode : Int
  payload : Json

/-- Mutable connection state: the protocol version injected into every
frame and the outbound sequence counter (`self._seq`, initially 0). -/
structure ConnState where
  ver : Int
  seq : Nat

/-- `MaxConnection._create_message(opcode, payload, cmd=0)`: increment
`self._seq`, then build the envelope around it. -/
def createMessage (c : ConnState) (opcode : Int) (payload : Json) (cmd : Int) :
    Frame × ConnState :=
  let seq' := c.seq + 1
  (⟨c.ver, cmd, seq', opcode, payload⟩, ⟨c.ver, seq'⟩)

/-- `json.dumps` of the envelope dict, key order as written in
`_create_message`. -/
def frameJson (f : Frame) : Json :=
  Json.jobj [(cp "ver", Json.jnum f.ver), (cp "cmd", Json.jnum f.cmd),
             (cp "seq", Json.jnum (f.seq : Int)), (cp "opcode", Json.jnum f.opcode),
             (cp "payload", f.payload)]

/-- `MaxConnection._send`: the bytes handed to the transport. -/
def encodeFrame (f : Frame) : List Nat := printVal (frameJson f)

/-- The decoding side of the codec: `json.loads` in `_listen` followed by
the field reads of `_handle_message` (`message.get("cmd")`,
`message.get("opcode")`, `message.get("payload", {})`). -/
def decodeFrameFields (s : List Nat) : Option (Json × Json × Json) :=
  match jsonLoads s with
  | some (Json.jobj l) =>
      some ((jlookup l (cp "cmd")).getD Json.jnull,
            (jlookup l (cp "opcode")).getD Json.jnull,
            (jlookup l (cp "payload")).getD (Json.jobj []))
  | _ => none

/-- `DEFAULT_CHATS_COUNT` from `constants.py`. -/
def DEFAULT_CHATS_COUNT : Int := 40

/-- `AUTH_TIMEOUT` (seconds) from `constants.py`. -/
def AUTH_TIMEOUT : Nat := 60

/-! ### Payload builders, one per outbound call site -/

/-- `send_message` payload. -/
def sendMessagePayload (chatId : Int) (text : List Nat) (replyTo : Option Json)
    (cid : Int) : Json :=
  let base := [(cp "text", Json.jstr text), (cp "cid", Json.jnum cid),
               (cp "elements", Json.jarr []), (cp "attaches", Json.jarr [])]
  let msg := match replyTo with
    | some r => base ++ [(cp "replyTo", r)]
    | none => base
  Json.jobj [(cp "chatId", Json.jnum chatId), (cp "message", Json.jobj msg),
             (cp "notify", Json.jbool true)]

/-- `send_sticker` payload. -/
def sendStickerPayload (chatId : Int) (stickerId : Int) (replyTo : Option Json)
    (cid : Int) : Json :=
  let base := [(cp "cid", Json.jnum cid),
               (cp "attaches", Json.jarr [Json.jobj
                 [(cp "_type", Json.jstr (cp "STICKER")),
                  (cp "stickerId", Json.jnum stickerId)]])]
  let msg := match replyTo with
    | some r => base ++ [(cp "replyTo", r)]
    | none => base
  Json.jobj [(cp "chatId", Json.jnum chatId), (cp "message", Json.jobj msg),
             (cp "notify", Json.jbool true)]

/-- `send_reaction` payload. -/
def sendReactionPayload (chatId : Int) (messageId : Json) (reactionType : List Nat)
    (reactionId : List Nat) : Json :=
  Json.jobj [(cp "chatId", Json.jnum chatId), (cp "messageId", messageId),
             (cp "reaction", Json.jobj
               [(cp "reactionType", Json.jstr reactionType),
                (cp "id", Json.jstr reactionId)])]

/-- `edit_message` payload. -/
def editMessagePayload (chatId : Int) (messageId : Json) (text : List Nat) : Json :=
  Json.jobj [(cp "chatId", Json.jnum chatId), (cp "messageId", messageId),
             (cp "text", Json.jstr text)]

/-- `delete_message` payload. -/
def deleteMessagePayload (chatId : Int) (messageId : Json) : Json :=
  Json.jobj [(cp "chatId", Json.jnum chatId), (cp "messageId", messageId)]

/-- `send_events` payload: one frame carrying the whole event list. -/
def sendEventsPayload (events : List Json) : Json :=
  Json.jobj [(cp "events", Json.jarr events)]

/-- `send_auth_start` payload. -/
def sendAuthStartPayload (phone : List Nat) (language : List Nat) : Json :=
  Json.jobj [(cp "phone", Json.jstr phone),
             (cp "type", Json.jstr (cp "START_AUTH")),
             (cp "language", Json.jstr language)]

/-- `send_auth_code` payload. -/
def sendAuthCodePayload (token : Json) (verifyCode : List Nat) : Json :=
  Json.jobj [(cp "token", token), (cp "verifyCode", Json.jstr verifyCode),
             (cp "authTokenType", Json.jstr (cp "CHECK_CODE"))]

/-- `send_auth_token` payload. -/
def sendAuthTokenPayload (token : Json) (interactive : Bool) (chatsCount : Int) : Json :=
  Json.jobj [(cp "interactive", Json.jbool interactive), (cp "token", token),
             (cp "chatsCount", Json.jnum chatsCount), (cp "chatsSync", Json.jnum 0),
             (cp "contactsSync", Json.jnum 0), (cp "presenceSync", Json.jnum 0),
             (cp "draftsSync", Json.jnum 0)]

/-- `send_get_chats` payload. -/
def sendGetChatsPayload (chatIds : List Int) : Json :=
  Json.jobj [(cp "chatIds", Json.jarr (chatIds.map Json.jnum))]

/-- `send_get_contacts` payload. -/
def sendGetContactsPayload (contactIds : List Int) : Json :=
  Json.jobj [(cp "contactIds", Json.jarr (contactIds.map Json.jnum))]

/-- `_initialize` payload (user-agent dict and device id from session data). -/
def initializePayload (userAgent : Json) (deviceId : Json) : Json :=
  Json.jobj [(cp "userAgent", userAgent), (cp "deviceId", deviceId)]

/-! ### The outbound operations of `MaxConnection`

Each public send method builds its payload, calls `_create_message` with
the default `cmd=0`, and hands exactly one frame to `_send`. -/

/-- One outbound client operation together with its call arguments. -/
inductive ClientOp where
  | opInitialize (userAgent : Json) (deviceId : Json)
  | opSendMessage (chatId : Int) (text : List Nat) (replyTo : Option Json) (cid : Int)
  | opSendSticker (chatId : Int) (stickerId : Int) (replyTo : Option Json) (cid : Int)
  | opSendReaction (chatId : Int) (messageId : Json) (reactionType : List Nat)
      (reactionId : List Nat)
  | opEditMessage (chatId : Int) (messageId : Json) (text : List Nat)
  | opDeleteMessage (chatId : Int) (messageId : Json)
  | opSendEvents (events : List Json)
  | opSendAuthStart (phone : List Nat) (language : List Nat)
  | opSendAuthCode (token : Json) (verifyCode : List Nat)
  | opSendAuthToken (token : Json) (interactive : Bool) (chatsCount : Int)
  | opSendGetChats (chatIds : List Int)
  | opSendGetContacts (contactIds : List Int)

/-- The opcode each operation passes to `_create_message`. -/
def ClientOp.opcode : ClientOp → Int
  | opInitialize _ _ => 6
  | opSendMessage _ _ _ _ => 64
  | opSendSticker _ _ _ _ => 64
  | opSendReaction _ _ _ _ => 178
  | opEditMessage _ _ _ => 21
  | opDeleteMessage _ _ => 22
  | opSendEvents _ => 5
  | opSendAuthStart _ _ => 17
  | opSendAuthCode _ _ => 18
  | opSendAuthToken _ _ _ => 19
  | opSendGetChats _ => 48
  | opSendGetContacts _ => 32

/-- The payload each operation builds. -/
def ClientOp.payload : ClientOp → Json
  | opInitialize ua dev => initializePayload ua dev
  | opSendMessage c t r cid => sendMessagePayload c t r cid
  | opSendSticker c s r cid => sendStickerPayload c s r cid
  | opSendReaction c m ty i => sendReactionPayload c m ty i
  | opEditMessage c m t => editMessagePayload c m t
  | opDeleteMessage c m => deleteMessagePayload c m
  | opSendEvents ev => sendEventsPayload ev
  | opSendAuthStart p l => sendAuthStartPayload p l
  | opSendAuthCode t v => sendAuthCodePayload t v
  | opSendAuthToken t i n => sendAuthTokenPayload t i n
  | opSendGetChats l => sendGetChatsPayload l
  | opSendGetContacts l => sendGetContactsPayload l

/-- Run one outbound operation: every call site invokes `_create_message`
with the default `cmd=0` and sends the single resulting frame. -/
def runOp (c : ConnState) (op : ClientOp) : Frame × ConnState :=
  createMessage c op.opcode op.payload 0

/-- Run a sequence of outbound operations, collecting the frames handed
to the transport in order. -/
def runOps (c : ConnState) : List ClientOp → List Frame × ConnState
  | [] => ([], c)
  | op :: t =>
    let (f, c') := runOp c op
    let (fs, c'') := runOps c' t
    (f :: fs, c'')

/-! ## Event routing and the listen loop (`_handle_message`, `_listen`) -/

/-- The closed enumeration of internal event names. -/
inductive EvName where
  | auth_success | auth_code_requested | auth_code_checked | message_sent
  | contacts_update | chats_update | auth_error | auth_code_error | new_message
  deriving DecidableEq, Repr

/-- The `(cmd, opcode) → event name` table of `_handle_message`, with
Python `==` semantics on the decoded values. -/
def eventName (cmd : Json) (opcode : Json) : Option EvName :=
  if pyEqNum cmd 1 then
    if pyEqNum opcode 19 then some EvName.auth_success
    else if pyEqNum opcode 17 then some EvName.auth_code_requested
    else if pyEqNum opcode 18 then some EvName.auth_code_checked
    else if pyEqNum opcode 64 then some EvName.message_sent
    else if pyEqNum opcode 32 then some EvName.contacts_update
    else if pyEqNum opcode 48 then some EvName.chats_update
    else none
  else if pyEqNum cmd 3 then
    if pyEqNum opcode 19 then some EvName.auth_error
    else if pyEqNum opcode 17 then some EvName.auth_code_error
    else none
  else if pyEqNum cmd 0 then
    if pyEqNum opcode 128 then some EvName.new_message
    else none
  else none

/-- `_handle_message`: falsy or non-dict messages are dropped; otherwise
the `(cmd, opcode)` pair is routed, and handlers run only when the event
name is mapped and registered.  The result is the dispatch performed:
which event fired with which payload. -/
def handleMessage (registered : EvName → Bool) (m : Json) : List (EvName × Json) :=
  match m with
  | Json.jobj l =>
    if l.isEmpty then []
    else
      let cmd := (jlookup l (cp "cmd")).getD Json.jnull
      let opcode := (jlookup l (cp "opcode")).getD Json.jnull
      let payload := (jlookup l (cp "payload")).getD (Json.jobj [])
      match eventName cmd opcode with
      | some ev => if registered ev then [(ev, payload)] else []
      | none => []
  | _ => []

/-- One iteration's input to the listen loop: a timeout, a transport
`ConnectionError`, some other receive failure, or received text. -/
inductive RecvResult where
  | rTimeout
  | rClosed
  | rFail
  | rData (s : List Nat)

/-- `MaxConnection._listen`: timeouts and unexpected errors continue the
loop, `ConnectionError` terminates it, empty reads are skipped, decode
failures are logged (in debug) and skipped, decoded messages are
dispatched.  The result collects every dispatch performed. -/
def listenLoop (registered : EvName → Bool) : List RecvResult → List (EvName × Json)
  | [] => []
  | RecvResult.rTimeout :: rest => listenLoop registered rest
  | RecvResult.rClosed :: _ => []
  | RecvResult.rFail :: rest => listenLoop registered rest
  | RecvResult.rData s :: rest =>
    if s.isEmpty then listenLoop registered rest
    else
      match jsonLoads s with
      | none => listenLoop registered rest
      | some m => handleMessage registered m ++ listenLoop registered rest

/-! ## Auth state machine (`AuthManager`, `auth_manager.py`)

Handlers act on the manager's state and emit an ordered trace of
observable actions (store writes, saves, sends, future operations).
A handler that raises before reaching any effect (an `AttributeError`
from `.get` on a non-dict) leaves the state unchanged and emits nothing;
the listen loop catches and logs the exception. -/

/-- Why a pending operation was failed. -/
inductive AuthFailMsg where
  | phoneNotFound                    -- AuthError("Phone number not found")
  | authErrorMsg (message : Json)    -- AuthError(f"Auth error: \x7bmessage\x7d")
  | codeErrorMsg (localized : Json)  -- AuthError(f"Auth code error: \x7blocalized\x7d")

/-- Status of an `asyncio.Future` used as the pending operation. -/
inductive FStatus where
  | pending
  | resolvedWith (payload : Json)
  | failedWith (e : AuthFailMsg)

/-- A pending-operation handle: identity plus status. -/
structure FutureH where
  fid : Nat
  status : FStatus

/-- Observable actions of the auth engine, in program order. -/
inductive AuthAction where
  | aSleep                                        -- asyncio.sleep(AUTH_DELAY)
  | aSend (f : Frame)                             -- frame handed to the transport
  | aStoreSet (key : List Nat) (value : Json)     -- session.set(key, value)
  | aStoreSave                                    -- await session.save()
  | aCreateFuture (fid : Nat)                     -- self._auth_future = Future()
  | aAwaitFuture (fid : Nat)                      -- await self._auth_future
  | aAwaitTimeout (fid : Nat) (seconds : Nat)     -- wait_for(..., AUTH_TIMEOUT)
  | aResolveFuture (fid : Nat) (payload : Json)   -- set_result(payload)
  | aFailFuture (fid : Nat) (e : AuthFailMsg)     -- set_exception(AuthError(..))

/-- State of one `AuthManager` with its connection and session store.
`storeToken`/`storePhone` are the session values under `"token"` and
`"phone"` (`jnull` models Python `None`); `phone` is `self._phone`;
`codeCb` models `self._code_callback` by the code it would return. -/
structure AuthState where
  conn : ConnState
  storeToken : Json
  storePhone : Json
  phone : Option (List Nat)
  codeCb : Option (List Nat)
  future : Option FutureH
  nextFid : Nat

/-- A fresh `AuthManager` over a loaded session: no pending operation,
no phone attribute, no callback; the store may already hold values. -/
def initAuthState (ver : Int) (tok pho : Json) : AuthState :=
  { conn := ⟨ver, 0⟩, storeToken := tok, storePhone := pho,
    phone := none, codeCb := none, future := none, nextFid := 0 }

/-- The two synthetic navigation events (`COLD_START`, `GO`) built in
`authenticate` and `_on_auth_error`, with the two loop-clock readings. -/
def navEvents (t1 t2 : Int) : List Json :=
  [Json.jobj [(cp "type", Json.jstr (cp "COLD_START")), (cp "time", Json.jnum t1)],
   Json.jobj [(cp "type", Json.jstr (cp "GO")), (cp "page", Json.jnum 1),
              (cp "time", Json.jnum t2)]]

/-- `AuthManager.authenticate(phone, code_callback)`. -/
def authenticate (st : AuthState) (phoneArg : Option (List Nat))
    (cb : Option (List Nat)) (t1 t2 : Int) : AuthState × List AuthAction :=
  if st.storeToken.truthy then
    let (fr, c') := runOp st.conn (ClientOp.opSendAuthToken st.storeToken false
      DEFAULT_CHATS_COUNT)
    let fid := st.nextFid
    ({ st with conn := c', future := some ⟨fid, FStatus.pending⟩, nextFid := fid + 1 },
     [AuthAction.aSleep, AuthAction.aSend fr, AuthAction.aCreateFuture fid,
      AuthAction.aAwaitFuture fid])
  else
    match phoneArg with
    | some p =>
      if p.isEmpty then (st, [])
      else
        let (fr17, c1) := runOp st.conn (ClientOp.opSendAuthStart p (cp "ru"))
        let (fr5, c2) := runOp c1 (ClientOp.opSendEvents (navEvents t1 t2))
        let fid := st.nextFid
        ({ st with
            conn := c2, storePhone := Json.jstr p, phone := some p,
            codeCb := cb, future := some ⟨fid, FStatus.pending⟩, nextFid := fid + 1 },
         [AuthAction.aStoreSet (cp "phone") (Json.jstr p), AuthAction.aStoreSave,
          AuthAction.aSend fr17, AuthAction.aSend fr5,
          AuthAction.aCreateFuture fid, AuthAction.aAwaitFuture fid])
    | none => (st, [])

/-- `AuthManager._on_auth_success`. -/
def onAuthSuccess (st : AuthState) (payload : Json) : AuthState × List AuthAction :=
  match pyGet payload (cp "token") with
  | none => (st, [])
  | some tok =>
    let (st1, acts1) :=
      if tok.truthy then
        ({ st with storeToken := tok },
         [AuthAction.aStoreSet (cp "token") tok, AuthAction.aStoreSave])
      else (st, ([] : List AuthAction))
    match st1.future with
    | some ⟨fid, FStatus.pending⟩ =>
      ({ st1 with future := some ⟨fid, FStatus.resolvedWith payload⟩ },
       acts1 ++ [AuthAction.aResolveFuture fid payload])
    | _ => (st1, acts1)

/-- `AuthManager._on_auth_code_requested`. -/
def onAuthCodeRequested (st : AuthState) (payload : Json) :
    AuthState × List AuthAction :=
  match pyGet payload (cp "token") with
  | none => (st, [])
  | some tok =>
    match st.codeCb with
    | some code =>
      if code.isEmpty then (st, [])
      else
        let (fr18, c1) := runOp st.conn (ClientOp.opSendAuthCode tok code)
        ({ st with conn := c1 }, [AuthAction.aSend fr18])
    | none => (st, [])

/-- `AuthManager._on_auth_code_checked`. -/
def onAuthCodeChecked (st : AuthState) (payload : Json) :
    AuthState × List AuthAction :=
  match pyGetD payload (cp "tokenAttrs") (Json.jobj []) with
  | none => (st, [])
  | some tokenAttrs =>
    match pyGetD tokenAttrs (cp "LOGIN") (Json.jobj []) with
    | none => (st, [])
    | some login =>
      match pyGet login (cp "token") with
      | none => (st, [])
      | some loginToken =>
        if loginToken.truthy then
          let (fr19, c1) := runOp st.conn (ClientOp.opSendAuthToken loginToken false
            DEFAULT_CHATS_COUNT)
          ({ st with storeToken := loginToken, conn := c1 },
           [AuthAction.aStoreSet (cp "token") loginToken, AuthAction.aStoreSave,
            AuthAction.aSend fr19])
        else (st, [])

/-- Fail the pending operation if one exists and is not done. -/
def failPending (st : AuthState) (e : AuthFailMsg) : AuthState × List AuthAction :=
  match st.future with
  | some ⟨fid, FStatus.pending⟩ =>
    ({ st with future := some ⟨fid, FStatus.failedWith e⟩ },
     [AuthAction.aFailFuture fid e])
  | _ => (st, [])

/-- `AuthManager._on_auth_error`. -/
def onAuthError (st : AuthState) (payload : Json) (t1 t2 : Int) :
    AuthState × List AuthAction :=
  match pyGet payload (cp "error") with
  | none => (st, [])
  | some err =>
    let msg := (pyGet payload (cp "message")).getD Json.jnull
    if pyEqStr err (cp "login.token") || pyEqStr msg (cp "FAIL_LOGIN_TOKEN") then
      let st1 := { st with storeToken := Json.jnull }
      let acts1 := [AuthAction.aStoreSet (cp "token") Json.jnull,
                    AuthAction.aStoreSave]
      match st.phone with
      | some p =>
        if p.isEmpty then
          let (st2, acts2) := failPending st1 AuthFailMsg.phoneNotFound
          (st2, acts1 ++ acts2)
        else
          let (fr17, c1) := runOp st1.conn (ClientOp.opSendAuthStart p (cp "ru"))
          let (fr5, c2) := runOp c1 (ClientOp.opSendEvents (navEvents t1 t2))
          let fid := st1.nextFid
          ({ st1 with
              conn := c2, future := some ⟨fid, FStatus.pending⟩,
              nextFid := fid + 1 },
           acts1 ++ [AuthAction.aSend fr17, AuthAction.aSend fr5,
             AuthAction.aCreateFuture fid,
             AuthAction.aAwaitTimeout fid AUTH_TIMEOUT])
      | none =>
        let (st2, acts2) := failPending st1 AuthFailMsg.phoneNotFound
        (st2, acts1 ++ acts2)
    else
      failPending st (AuthFailMsg.authErrorMsg msg)

/-- `AuthManager._on_auth_code_error`. -/
def onAuthCodeError (st : AuthState) (payload : Json) :
    AuthState × List AuthAction :=
  match pyGet payload (cp "error") with
  | none => (st, [])
  | some _ =>
    let msg := (pyGet payload (cp "message")).getD Json.jnull
    let localized := (pyGetD payload (cp "localizedMessage") msg).getD msg
    failPending st (AuthFailMsg.codeErrorMsg localized)

/-- One stimulus driving the auth engine: a call to `authenticate` or the
arrival of one routed auth event. -/
inductive AuthEvent where
  | evAuthenticate (phoneArg : Option (List Nat)) (cb : Option (List Nat)) (t1 t2 : Int)
  | evAuthSuccess (payload : Json)
  | evAuthCodeRequested (payload : Json)
  | evAuthCodeChecked (payload : Json)
  | evAuthError (payload : Json) (t1 t2 : Int)
  | evAuthCodeError (payload : Json)

/-- Step the auth engine by one stimulus. -/
def authStep (st : AuthState) : AuthEvent → AuthState × List AuthAction
  | AuthEvent.evAuthenticate p cb t1 t2 => authenticate st p cb t1 t2
  | AuthEvent.evAuthSuccess payload => onAuthSuccess st payload
  | AuthEvent.evAuthCodeRequested payload => onAuthCodeRequested st payload
  | AuthEvent.evAuthCodeChecked payload => onAuthCodeChecked st payload
  | AuthEvent.evAuthError payload t1 t2 => onAuthError st payload t1 t2
  | AuthEvent.evAuthCodeError payload => onAuthCodeError st payload

/-- Run the auth engine over a stimulus sequence, concatenating traces. -/
def authRun (st : AuthState) : List AuthEvent → AuthState × List AuthAction
  | [] => (st, [])
  | e :: t =>
    let (st1, acts1) := authStep st e
    let (st2, acts2) := authRun st1 t
    (st2, acts1 ++ acts2)

/-! ### Trace predicates -/

/-- Is this action the send of a frame with the given opcode? -/
def isSendOpc (opc : Int) : AuthAction → Bool
  | AuthAction.aSend f => f.opcode == opc
  | _ => false

/-- Is this action any frame send? -/
def isSendA : AuthAction → Bool
  | AuthAction.aSend _ => true
  | _ => false

/-- Is this action a store save? -/
def isSaveA : AuthAction → Bool
  | AuthAction.aStoreSave => true
  | _ => false

/-- Is this action the creation of a fresh pending operation? -/
def isCreateA : AuthAction → Bool
  | AuthAction.aCreateFuture _ => true
  | _ => false

/-- Is this action a resolution or failure of the handle `fid`? -/
def settlesFid (fid : Nat) : AuthAction → Bool
  | AuthAction.aResolveFuture i _ => i == fid
  | AuthAction.aFailFuture i _ => i == fid
  | _ => false

/-- Effect of one action on the list of outstanding (created, not yet
resolved or failed) handles, oldest first. -/
def outstandingStep (acc : List Nat) : AuthAction → List Nat
  | AuthAction.aCreateFuture fid => acc.concat fid
  | AuthAction.aResolveFuture fid _ => acc.eraseP (fun i => i == fid)
  | AuthAction.aFailFuture fid _ => acc.eraseP (fun i => i == fid)
  | _ => acc

/-- The outstanding handles after a trace (earliest action first). -/
def outstanding (tr : List AuthAction) : List Nat :=
  tr.foldl outstandingStep []

/-- The settlements (resolutions or failures) of handles in a trace. -/
def settledFids (tr : List AuthAction) : List Nat :=
  tr.filterMap (fun a => match a with
    | AuthAction.aResolveFuture fid _ => some fid
    | AuthAction.aFailFuture fid _ => some fid
    | _ => none)

/-- The handles created in a trace. -/
def createdFids (tr : List AuthAction) : List Nat :=
  tr.filterMap (fun a => match a with
    | AuthAction.aCreateFuture fid => some fid
    | _ => none)

/-- The token-invalidity test of `_on_auth_error`:
`error == "login.token" or message == "FAIL_LOGIN_TOKEN"`. -/
def tokenInvalidPayload (payload : Json) : Bool :=
  pyEqStr ((pyGet payload (cp "error")).getD Json.jnull) (cp "login.token") ||
  pyEqStr ((pyGet payload (cp "message")).getD Json.jnull) (cp "FAIL_LOGIN_TOKEN")

/-- The nested token extraction of `_on_auth_code_checked`:
`payload.get("tokenAttrs", {}).get("LOGIN", {}).get("token")`; `none`
models the `AttributeError` raised when an intermediate value is not a
dict. -/
def loginTokenOf (payload : Json) : Option Json :=
  match pyGetD payload (cp "tokenAttrs") (Json.jobj []) with
  | none => none
  | some tokenAttrs =>
    match pyGetD tokenAttrs (cp "LOGIN") (Json.jobj []) with
    | none => none
    | some login => pyGet login (cp "token")

/-! ## Well-formedness and parser cost bounds (for the codec claims) -/

/-- A Unicode scalar value (what Python strings hold after decoding any
well-formed text: below the surrogate range or above it, within the
Unicode code space). -/
def scalarCp (c : Nat) : Bool := c < 55296 || (57344 ≤ c && c < 1114112)

/-- All code points of a string are scalar values. -/
def wfStr (s : List Nat) : Bool := s.all scalarCp

mutual

/-- Well-formed JSON value: every string consists of scalar values. -/
def Json.wf : Json → Bool
  | Json.jnull => true
  | Json.jbool _ => true
  | Json.jnum _ => true
  | Json.jstr s => wfStr s
  | Json.jarr l => wfItems l
  | Json.jobj l => wfFields l

/-- Well-formedness of array items. -/
def wfItems : List Json → Bool
  | [] => true
  | x :: t => x.wf && wfItems t

/-- Well-formedness of object fields. -/
def wfFields : List (List Nat × Json) → Bool
  | [] => true
  | (k, v) :: t => wfStr k && v.wf && wfFields t

end

mutual

/-- Fuel sufficient for `parseVal` to parse the printed form of a value. -/
def costV : Json → Nat
  | Json.jnull => 1
  | Json.jbool _ => 1
  | Json.jnum _ => 1
  | Json.jstr s => s.length + 2
  | Json.jarr l => 1 + costItems l
  | Json.jobj l => 1 + costFields l

/-- Fuel sufficient for `parseItems` on printed items. -/
def costItems : List Json → Nat
  | [] => 0
  | x :: t => 1 + costV x + costItems t

/-- Fuel sufficient for `parseFields` on printed fields. -/
def costFields : List (List Nat × Json) → Nat
  | [] => 0
  | (k, v) :: t => 2 + k.length + costV v + costFields t

end

/-- Every send action in a trace carries a `cmd = 0` frame. -/
def sendsCmdZero (tr : List AuthAction) : Bool :=
  tr.all (fun a => match a with
    | AuthAction.aSend f => f.cmd == 0
    | _ => true)

/-- The single-slot invariant relating an auth-engine state to the trace
so far: every handle is settled at most once, handles are created with
fresh identities below the counter, and a handle still pending in the
slot has never been settled. -/
def SlotInv (st : AuthState) (tr : List AuthAction) : Prop :=
  (settledFids tr).Nodup ∧
  (createdFids tr).Nodup ∧
  (∀ fid ∈ settledFids tr, fid < st.nextFid) ∧
  (∀ fid ∈ createdFids tr, fid < st.nextFid) ∧
  (∀ h : FutureH, st.future = some h → h.fid < st.nextFid) ∧
  (∀ h : FutureH, st.future = some h → h.status = FStatus.pending →
    h.fid ∉ settledFids tr)

/-- "The rest of the input does not begin with a decimal digit": the
separation condition under which the greedy number parser stops exactly
at a printed number's end. -/
def SepOk : List Nat → Prop
  | [] => True
  | c :: _ => isDigitCp c = false

instance : ∀ s, Decidable (SepOk s)
  | [] => inferInstanceAs (Decidable True)
  | _ :: _ => inferInstanceAs (Decidable (_ = false))

/-! # Theorems -/

/-- Every outbound frame sequence has one frame per operation, with
sequence numbers continuing from the current counter. -/
theorem runOps_seq (c : ConnState) (ops : List ClientOp) :
    (runOps c ops).1.length = ops.length ∧
    ∀ i (h : i < (runOps c ops).1.length),
      ((runOps c ops).1.get ⟨i, h⟩).seq = c.seq + i + 1 := by
  induction ops generalizing c with
  | nil => simp [runOps]
  | cons op t ih =>
    refine ⟨by simpa [runOps, runOp, createMessage] using (ih ⟨c.ver, c.seq + 1⟩).1, ?_⟩
    intro i h
    cases i with
    | zero => simp [runOps, runOp, createMessage]
    | succ j =>
      have hj : j < (runOps ⟨c.ver, c.seq + 1⟩ t).1.length := by
        simp only [runOps, runOp, createMessage, List.length_cons] at h
        omega
      have hstep := (ih ⟨c.ver, c.seq + 1⟩).2 j hj
      have hget : ((runOps c (op :: t)).1.get ⟨j + 1, h⟩)
          = ((runOps ⟨c.ver, c.seq + 1⟩ t).1.get ⟨j, hj⟩) := rfl
      rw [hget, hstep]
      show c.seq + 1 + j + 1 = c.seq + (j + 1) + 1
      omega

/-- C7: for every sequence of outbound frames produced by one connection
object, the `seq` of the `i`-th frame (0-based) is `i + 1`: it starts at
1 with the first outbound frame and increases by exactly 1 per frame,
never resetting while the connection state lives. -/
theorem seq_starts_at_one_and_increments (v : Int) (ops : List ClientOp) :
    (runOps ⟨v, 0⟩ ops).1.length = ops.length ∧
    ∀ i (h : i < (runOps ⟨v, 0⟩ ops).1.length),
      ((runOps ⟨v, 0⟩ ops).1.get ⟨i, h⟩).seq = i + 1 := by
  refine ⟨(runOps_seq ⟨v, 0⟩ ops).1, ?_⟩
  intro i h
  simpa using (runOps_seq ⟨v, 0⟩ ops).2 i h

/-- Each auth-engine step sends only `cmd = 0` frames. -/
theorem authStep_sendsCmdZero (st : AuthState) (e : AuthEvent) :
    sendsCmdZero (authStep st e).2 = true := by
  cases e <;>
    simp only [authStep, authenticate, onAuthSuccess, onAuthCodeRequested,
      onAuthCodeChecked, onAuthError, onAuthCodeError, failPending] <;>
    (repeat' split) <;> rfl

/-- Auth-engine runs send only `cmd = 0` frames. -/
theorem authRun_sendsCmdZero (st : AuthState) (evs : List AuthEvent) :
    sendsCmdZero (authRun st evs).2 = true := by
  induction evs generalizing st with
  | nil => rfl
  | cons e t ih =>
    have h1 := authStep_sendsCmdZero st e
    have h2 := ih (authStep st e).1
    have hr : (authRun st (e :: t)).2
        = (authStep st e).2 ++ (authRun (authStep st e).1 t).2 := rfl
    simp only [sendsCmdZero] at h1 h2 ⊢
    rw [hr, List.all_append, h1, h2]
    rfl

/-- Every frame of a connection-level run has `cmd = 0`. -/
theorem runOps_cmdZero (c : ConnState) (ops : List ClientOp) :
    ∀ f ∈ (runOps c ops).1, f.cmd = 0 := by
  induction ops generalizing c with
  | nil => simp [runOps]
  | cons op t ih =>
    intro f hf
    have : f = (runOp c op).1 ∨ f ∈ (runOps (runOp c op).2 t).1 := by
      simpa [runOps] using hf
    rcases this with rfl | hf'
    · rfl
    · exact ih _ f hf'

/-- C10: every outbound frame the client constructs — device-init,
telemetry, start-auth, verify-code, token-auth, all message-layer sends,
and every frame sent by the auth engine — carries `cmd = 0`; the client
never emits a frame with `cmd = 1` or `cmd = 3`. -/
theorem outbound_cmd_always_zero (v : Int) (ops : List ClientOp)
    (st : AuthState) (evs : List AuthEvent) :
    (∀ f ∈ (runOps ⟨v, 0⟩ ops).1, f.cmd = 0 ∧ ¬(f.cmd = 1 ∨ f.cmd = 3)) ∧
    (∀ fr : Frame, AuthAction.aSend fr ∈ (authRun st evs).2 →
      fr.cmd = 0 ∧ ¬(fr.cmd = 1 ∨ fr.cmd = 3)) := by
  constructor
  · intro f hf
    have h0 := runOps_cmdZero ⟨v, 0⟩ ops f hf
    exact ⟨h0, by omega⟩
  · intro fr hfr
    have hall := authRun_sendsCmdZero st evs
    simp only [sendsCmdZero, List.all_eq_true] at hall
    have := hall _ hfr
    simp only [beq_iff_eq] at this
    exact ⟨this, by omega⟩

/-- Witness for C10: the first frame of a concrete one-operation run has
`cmd = 0`. -/
theorem outbound_cmd_always_zero_witness :
    ((runOps ⟨11, 0⟩ [ClientOp.opSendEvents []]).1.get ⟨0, by decide⟩).cmd = 0 :=
  ((outbound_cmd_always_zero 11 [ClientOp.opSendEvents []]
      (initAuthState 11 Json.jnull Json.jnull) []).1
    _ (List.get_mem _ _ _)).1

/-- C9: a malformed inbound byte string never terminates the listen
loop: its iteration is a no-op, and a subsequent well-formed frame is
still decoded and dispatched. -/
theorem listen_survives_malformed (reg : EvName → Bool) (bad : List Nat)
    (hbad : jsonLoads bad = none) (hne : bad.isEmpty = false)
    (rest : List RecvResult) :
    listenLoop reg (RecvResult.rData bad :: rest) = listenLoop reg rest ∧
    ∀ (good : List Nat) (m : Json) (rest' : List RecvResult),
      jsonLoads good = some m → good.isEmpty = false →
      listenLoop reg (RecvResult.rData bad :: RecvResult.rData good :: rest') =
        handleMessage reg m ++ listenLoop reg rest' := by
  constructor
  · simp [listenLoop, hne, hbad]
  · intro good m rest' hgood hgne
    simp [listenLoop, hne, hbad, hgood, hgne]

/-- Witness for C9: the malformed text `{` is skipped and the following
well-formed `new_message` push is still dispatched. -/
theorem listen_survives_malformed_witness :
    jsonLoads (cp "\x7b") = none ∧
    listenLoop (fun _ => true)
        [RecvResult.rData (cp "\x7b"),
         RecvResult.rData (cp "\x7b\"ver\": 11, \"cmd\": 0, \"seq\": 7, \"opcode\": 128, \"payload\": 5\x7d")] =
      handleMessage (fun _ => true)
        (Json.jobj [(cp "ver", Json.jnum 11), (cp "cmd", Json.jnum 0),
                    (cp "seq", Json.jnum 7), (cp "opcode", Json.jnum 128),
                    (cp "payload", Json.jnum 5)]) ++
        listenLoop (fun _ => true) [] :=
  ⟨rfl,
   (listen_survives_malformed (fun _ => true) (cp "\x7b") rfl rfl []).2
     (cp "\x7b\"ver\": 11, \"cmd\": 0, \"seq\": 7, \"opcode\": 128, \"payload\": 5\x7d")
     (Json.jobj [(cp "ver", Json.jnum 11), (cp "cmd", Json.jnum 0),
                 (cp "seq", Json.jnum 7), (cp "opcode", Json.jnum 128),
                 (cp "payload", Json.jnum 5)])
     [] rfl rfl⟩

/-- `_on_auth_success` resolves a pending operation with the event's
payload (whether or not a new token is persisted first). -/
theorem onAuthSuccess_resolves (st : AuthState) (l : List (List Nat × Json))
    (fid : Nat) (hfut : st.future = some ⟨fid, FStatus.pending⟩) :
    (onAuthSuccess st (Json.jobj l)).1.future
      = some ⟨fid, FStatus.resolvedWith (Json.jobj l)⟩ ∧
    (onAuthSuccess st (Json.jobj l)).2.getLast?
      = some (AuthAction.aResolveFuture fid (Json.jobj l)) := by
  unfold onAuthSuccess
  simp only [pyGet]
  by_cases hc : ((jlookup l (cp "token")).getD Json.jnull).truthy = true
  · rw [if_pos hc]
    simp only [hfut]
    exact ⟨trivial, by simp⟩
  · rw [if_neg hc]
    simp only [hfut]
    exact ⟨trivial, by simp⟩

/-- C2: with a token cached in the store, `authenticate()` sends exactly
one frame — a token-auth frame (opcode 19, `interactive=false` payload) —
before creating and blocking on a fresh pending operation, and that
pending operation is resolved with the payload of a subsequently
received `auth_success` event. -/
theorem token_fast_path (st : AuthState) (h : st.storeToken.truthy = true)
    (phoneArg : Option (List Nat)) (cb : Option (List Nat)) (t1 t2 : Int) :
    ∃ fr : Frame,
      (authenticate st phoneArg cb t1 t2).2
        = [AuthAction.aSleep, AuthAction.aSend fr,
           AuthAction.aCreateFuture st.nextFid, AuthAction.aAwaitFuture st.nextFid] ∧
      (authenticate st phoneArg cb t1 t2).2.countP isSendA = 1 ∧
      fr.opcode = 19 ∧ fr.cmd = 0 ∧
      fr.payload = sendAuthTokenPayload st.storeToken false DEFAULT_CHATS_COUNT ∧
      (authenticate st phoneArg cb t1 t2).1.future
        = some ⟨st.nextFid, FStatus.pending⟩ ∧
      ∀ l : List (List Nat × Json),
        (onAuthSuccess (authenticate st phoneArg cb t1 t2).1 (Json.jobj l)).1.future
          = some ⟨st.nextFid, FStatus.resolvedWith (Json.jobj l)⟩ ∧
        (onAuthSuccess (authenticate st phoneArg cb t1 t2).1 (Json.jobj l)).2.getLast?
          = some (AuthAction.aResolveFuture st.nextFid (Json.jobj l)) := by
  have hres : authenticate st phoneArg cb t1 t2
      = ({ st with
            conn := (runOp st.conn (ClientOp.opSendAuthToken st.storeToken false
              DEFAULT_CHATS_COUNT)).2,
            future := some ⟨st.nextFid, FStatus.pending⟩, nextFid := st.nextFid + 1 },
         [AuthAction.aSleep,
          AuthAction.aSend (runOp st.conn (ClientOp.opSendAuthToken st.storeToken false
            DEFAULT_CHATS_COUNT)).1,
          AuthAction.aCreateFuture st.nextFid, AuthAction.aAwaitFuture st.nextFid]) := by
    unfold authenticate
    rw [if_pos h]
  refine ⟨_, by rw [hres], by rw [hres]; rfl, rfl, rfl, rfl, by rw [hres], ?_⟩
  intro l
  exact onAuthSuccess_resolves _ l st.nextFid (by rw [hres])

/-- Witness for C2: a concrete cached token; the fast path emits exactly
the modelled trace and a subsequent `auth_success` resolves the handle. -/
theorem token_fast_path_witness :
    (Json.jstr (cp "TOK")).truthy = true ∧
    ∃ fr : Frame,
      (authenticate (initAuthState 11 (Json.jstr (cp "TOK")) Json.jnull)
          none none 0 0).2
        = [AuthAction.aSleep, AuthAction.aSend fr,
           AuthAction.aCreateFuture 0, AuthAction.aAwaitFuture 0] ∧
      (authenticate (initAuthState 11 (Json.jstr (cp "TOK")) Json.jnull)
          none none 0 0).2.countP isSendA = 1 ∧
      fr.opcode = 19 ∧ fr.cmd = 0 ∧
      fr.payload = sendAuthTokenPayload (Json.jstr (cp "TOK")) false
        DEFAULT_CHATS_COUNT ∧
      (authenticate (initAuthState 11 (Json.jstr (cp "TOK")) Json.jnull)
          none none 0 0).1.future = some ⟨0, FStatus.pending⟩ ∧
      ∀ l : List (List Nat × Json),
        (onAuthSuccess (authenticate (initAuthState 11 (Json.jstr (cp "TOK"))
            Json.jnull) none none 0 0).1 (Json.jobj l)).1.future
          = some ⟨0, FStatus.resolvedWith (Json.jobj l)⟩ ∧
        (onAuthSuccess (authenticate (initAuthState 11 (Json.jstr (cp "TOK"))
            Json.jnull) none none 0 0).1 (Json.jobj l)).2.getLast?
          = some (AuthAction.aResolveFuture 0 (Json.jobj l)) :=
  ⟨rfl, token_fast_path (initAuthState 11 (Json.jstr (cp "TOK")) Json.jnull)
    rfl none none 0 0⟩

/-- C3: with no cached token and a phone argument, `authenticate()`
writes the phone to the session store and completes the save strictly
before the start-auth frame (opcode 17) is handed to the transport; no
frame at all is sent before the persisted write. -/
theorem phone_persisted_before_start_auth (st : AuthState)
    (hTok : st.storeToken.truthy = false) (p : List Nat)
    (hp : p.isEmpty = false) (cb : Option (List Nat)) (t1 t2 : Int) :
    ∃ fr17 fr5 : Frame,
      (authenticate st (some p) cb t1 t2).2
        = [AuthAction.aStoreSet (cp "phone") (Json.jstr p), AuthAction.aStoreSave,
           AuthAction.aSend fr17, AuthAction.aSend fr5,
           AuthAction.aCreateFuture st.nextFid, AuthAction.aAwaitFuture st.nextFid] ∧
      fr17.opcode = 17 ∧ fr5.opcode = 5 ∧
      (authenticate st (some p) cb t1 t2).2.findIdx isSaveA = 1 ∧
      (authenticate st (some p) cb t1 t2).2.findIdx (isSendOpc 17) = 2 ∧
      ((authenticate st (some p) cb t1 t2).2.take 2).all
        (fun a => !isSendA a) = true := by
  have hres : authenticate st (some p) cb t1 t2
      = ({ st with
            conn := (runOp (runOp st.conn (ClientOp.opSendAuthStart p (cp "ru"))).2
              (ClientOp.opSendEvents (navEvents t1 t2))).2,
            storePhone := Json.jstr p, phone := some p, codeCb := cb,
            future := some ⟨st.nextFid, FStatus.pending⟩, nextFid := st.nextFid + 1 },
         [AuthAction.aStoreSet (cp "phone") (Json.jstr p), AuthAction.aStoreSave,
          AuthAction.aSend (runOp st.conn (ClientOp.opSendAuthStart p (cp "ru"))).1,
          AuthAction.aSend (runOp (runOp st.conn (ClientOp.opSendAuthStart p
            (cp "ru"))).2 (ClientOp.opSendEvents (navEvents t1 t2))).1,
          AuthAction.aCreateFuture st.nextFid, AuthAction.aAwaitFuture st.nextFid]) := by
    simp only [authenticate, hTok, Bool.false_eq_true, if_false, hp]
  exact ⟨_, _, by rw [hres], rfl, rfl, by rw [hres]; rfl, by rw [hres]; rfl,
    by rw [hres]; rfl⟩

/-- Witness for C3: a concrete phone number; the save precedes the
start-auth send in the emitted trace. -/
theorem phone_persisted_before_start_auth_witness :
    (Json.jnull.truthy = false ∧ (cp "79001234567").isEmpty = false) ∧
    ∃ fr17 fr5 : Frame,
      (authenticate (initAuthState 11 Json.jnull Json.jnull)
          (some (cp "79001234567")) none 0 0).2
        = [AuthAction.aStoreSet (cp "phone") (Json.jstr (cp "79001234567")),
           AuthAction.aStoreSave, AuthAction.aSend fr17, AuthAction.aSend fr5,
           AuthAction.aCreateFuture 0, AuthAction.aAwaitFuture 0] ∧
      fr17.opcode = 17 ∧ fr5.opcode = 5 ∧
      (authenticate (initAuthState 11 Json.jnull Json.jnull)
          (some (cp "79001234567")) none 0 0).2.findIdx isSaveA = 1 ∧
      (authenticate (initAuthState 11 Json.jnull Json.jnull)
          (some (cp "79001234567")) none 0 0).2.findIdx (isSendOpc 17) = 2 ∧
      ((authenticate (initAuthState 11 Json.jnull Json.jnull)
          (some (cp "79001234567")) none 0 0).2.take 2).all
        (fun a => !isSendA a) = true :=
  ⟨⟨rfl, rfl⟩, phone_persisted_before_start_auth
    (initAuthState 11 Json.jnull Json.jnull) rfl (cp "79001234567") rfl none 0 0⟩

/-- Witness for C7: a concrete two-operation lifetime; the second frame
has sequence number 2. -/
theorem seq_starts_at_one_and_increments_witness :
    1 < (runOps ⟨11, 0⟩ [ClientOp.opSendEvents [],
        ClientOp.opSendAuthStart (cp "79001234567") (cp "ru")]).1.length ∧
    ((runOps ⟨11, 0⟩ [ClientOp.opSendEvents [],
        ClientOp.opSendAuthStart (cp "79001234567") (cp "ru")]).1.get
      ⟨1, by decide⟩).seq = 2 :=
  ⟨by decide,
   (seq_starts_at_one_and_increments 11 [ClientOp.opSendEvents [],
      ClientOp.opSendAuthStart (cp "79001234567") (cp "ru")]).2 1 (by decide)⟩

/-- Counterexample to C4: in a concrete phone-based authentication the
trace contains exactly one telemetry frame (opcode 5), not two. -/
theorem two_telemetry_frames_counterexample :
    ((authenticate (initAuthState 11 Json.jnull Json.jnull)
        (some (cp "79001234567")) none 0 0).2.countP (isSendOpc 5) = 1) ∧
    ¬ ((authenticate (initAuthState 11 Json.jnull Json.jnull)
        (some (cp "79001234567")) none 0 0).2.countP (isSendOpc 5) = 2) := by
  exact ⟨by decide, by decide⟩

/-- C4 (amended): in both the initial phone flow and the reauthentication
flow, the start-auth frame (opcode 17) is immediately followed by exactly
one telemetry frame (opcode 5), whose payload carries the two synthetic
navigation events; one start-auth frame and one telemetry frame per
cycle. -/
theorem start_auth_followed_by_one_telemetry_frame :
    (∀ (st : AuthState), st.storeToken.truthy = false →
      ∀ (p : List Nat), p.isEmpty = false →
      ∀ (cb : Option (List Nat)) (t1 t2 : Int),
      ∃ fr17 fr5 : Frame,
        (authenticate st (some p) cb t1 t2).2
          = [AuthAction.aStoreSet (cp "phone") (Json.jstr p), AuthAction.aStoreSave,
             AuthAction.aSend fr17, AuthAction.aSend fr5,
             AuthAction.aCreateFuture st.nextFid, AuthAction.aAwaitFuture st.nextFid] ∧
        fr17.opcode = 17 ∧ fr5.opcode = 5 ∧
        fr5.payload = sendEventsPayload (navEvents t1 t2) ∧
        (navEvents t1 t2).length = 2 ∧
        (authenticate st (some p) cb t1 t2).2.countP (isSendOpc 17) = 1 ∧
        (authenticate st (some p) cb t1 t2).2.countP (isSendOpc 5) = 1) ∧
    (∀ (st : AuthState) (l : List (List Nat × Json)) (q : List Nat) (t1 t2 : Int),
      st.phone = some q → q.isEmpty = false →
      tokenInvalidPayload (Json.jobj l) = true →
      ∃ fr17 fr5 : Frame,
        (onAuthError st (Json.jobj l) t1 t2).2
          = [AuthAction.aStoreSet (cp "token") Json.jnull, AuthAction.aStoreSave,
             AuthAction.aSend fr17, AuthAction.aSend fr5,
             AuthAction.aCreateFuture st.nextFid,
             AuthAction.aAwaitTimeout st.nextFid AUTH_TIMEOUT] ∧
        fr17.opcode = 17 ∧ fr5.opcode = 5 ∧
        fr5.payload = sendEventsPayload (navEvents t1 t2) ∧
        (navEvents t1 t2).length = 2 ∧
        (onAuthError st (Json.jobj l) t1 t2).2.countP (isSendOpc 17) = 1 ∧
        (onAuthError st (Json.jobj l) t1 t2).2.countP (isSendOpc 5) = 1) := by
  constructor
  · intro st hTok p hp cb t1 t2
    have hres : authenticate st (some p) cb t1 t2
        = ({ st with
              conn := (runOp (runOp st.conn (ClientOp.opSendAuthStart p (cp "ru"))).2
                (ClientOp.opSendEvents (navEvents t1 t2))).2,
              storePhone := Json.jstr p, phone := some p, codeCb := cb,
              future := some ⟨st.nextFid, FStatus.pending⟩, nextFid := st.nextFid + 1 },
           [AuthAction.aStoreSet (cp "phone") (Json.jstr p), AuthAction.aStoreSave,
            AuthAction.aSend (runOp st.conn (ClientOp.opSendAuthStart p (cp "ru"))).1,
            AuthAction.aSend (runOp (runOp st.conn (ClientOp.opSendAuthStart p
              (cp "ru"))).2 (ClientOp.opSendEvents (navEvents t1 t2))).1,
            AuthAction.aCreateFuture st.nextFid,
            AuthAction.aAwaitFuture st.nextFid]) := by
      simp only [authenticate, hTok, Bool.false_eq_true, if_false, hp]
    exact ⟨_, _, by rw [hres], rfl, rfl, rfl, rfl, by rw [hres]; rfl,
      by rw [hres]; rfl⟩
  · intro st l q t1 t2 hphone hq hti
    simp only [tokenInvalidPayload, pyGet, Option.getD_some] at hti
    have hres : onAuthError st (Json.jobj l) t1 t2
        = ({ st with
              storeToken := Json.jnull,
              conn := (runOp (runOp st.conn (ClientOp.opSendAuthStart q (cp "ru"))).2
                (ClientOp.opSendEvents (navEvents t1 t2))).2,
              future := some ⟨st.nextFid, FStatus.pending⟩, nextFid := st.nextFid + 1 },
           [AuthAction.aStoreSet (cp "token") Json.jnull, AuthAction.aStoreSave,
            AuthAction.aSend (runOp st.conn (ClientOp.opSendAuthStart q (cp "ru"))).1,
            AuthAction.aSend (runOp (runOp st.conn (ClientOp.opSendAuthStart q
              (cp "ru"))).2 (ClientOp.opSendEvents (navEvents t1 t2))).1,
            AuthAction.aCreateFuture st.nextFid,
            AuthAction.aAwaitTimeout st.nextFid AUTH_TIMEOUT]) := by
      simp only [onAuthError, pyGet, Option.getD_some]
      rw [if_pos hti]
      simp only [hphone, hq, Bool.false_eq_true, if_false]
      rfl
    exact ⟨_, _, by rw [hres], rfl, rfl, rfl, rfl, by rw [hres]; rfl,
      by rw [hres]; rfl⟩

/-- Witness for the amended C4: a concrete phone flow and a concrete
reauthentication, each with one start-auth and one telemetry frame. -/
theorem start_auth_followed_by_one_telemetry_frame_witness :
    ((initAuthState 11 Json.jnull Json.jnull).storeToken.truthy = false ∧
     (cp "79001234567").isEmpty = false) ∧
    (∃ fr17 fr5 : Frame,
      (authenticate (initAuthState 11 Json.jnull Json.jnull)
          (some (cp "79001234567")) none 0 0).2
        = [AuthAction.aStoreSet (cp "phone") (Json.jstr (cp "79001234567")),
           AuthAction.aStoreSave, AuthAction.aSend fr17, AuthAction.aSend fr5,
           AuthAction.aCreateFuture 0, AuthAction.aAwaitFuture 0] ∧
      fr17.opcode = 17 ∧ fr5.opcode = 5 ∧
      fr5.payload = sendEventsPayload (navEvents 0 0) ∧
      (navEvents 0 0).length = 2 ∧
      (authenticate (initAuthState 11 Json.jnull Json.jnull)
          (some (cp "79001234567")) none 0 0).2.countP (isSendOpc 17) = 1 ∧
      (authenticate (initAuthState 11 Json.jnull Json.jnull)
          (some (cp "79001234567")) none 0 0).2.countP (isSendOpc 5) = 1) :=
  ⟨⟨rfl, rfl⟩,
   (start_auth_followed_by_one_telemetry_frame).1
     (initAuthState 11 Json.jnull Json.jnull) rfl (cp "79001234567") rfl none 0 0⟩

/-- C5: the `auth_error` reaction contract.  If the error indicates token
invalidity (`error == "login.token"` or `message == "FAIL_LOGIN_TOKEN"`),
the persisted token is cleared (a store write of `None` followed by a
save), and when no phone number is known a pending operation is failed
with the `AuthFailed`-kind "phone not found" error.  Any other
`auth_error` fails the pending operation with an error carrying the
event's message. -/
theorem auth_error_reaction_contract (st : AuthState)
    (l : List (List Nat × Json)) (t1 t2 : Int) :
    (tokenInvalidPayload (Json.jobj l) = true →
      (onAuthError st (Json.jobj l) t1 t2).1.storeToken = Json.jnull ∧
      (onAuthError st (Json.jobj l) t1 t2).2.take 2
        = [AuthAction.aStoreSet (cp "token") Json.jnull, AuthAction.aStoreSave] ∧
      (optTruthy st.phone = false →
        ∀ fid, st.future = some ⟨fid, FStatus.pending⟩ →
          (onAuthError st (Json.jobj l) t1 t2).1.future
            = some ⟨fid, FStatus.failedWith AuthFailMsg.phoneNotFound⟩ ∧
          (onAuthError st (Json.jobj l) t1 t2).2.getLast?
            = some (AuthAction.aFailFuture fid AuthFailMsg.phoneNotFound))) ∧
    (tokenInvalidPayload (Json.jobj l) = false →
      ∀ fid, st.future = some ⟨fid, FStatus.pending⟩ →
        (onAuthError st (Json.jobj l) t1 t2).1.future
          = some ⟨fid, FStatus.failedWith (AuthFailMsg.authErrorMsg
              ((jlookup l (cp "message")).getD Json.jnull))⟩ ∧
        (onAuthError st (Json.jobj l) t1 t2).2
          = [AuthAction.aFailFuture fid (AuthFailMsg.authErrorMsg
              ((jlookup l (cp "message")).getD Json.jnull))]) := by
  constructor
  · intro hti
    simp only [tokenInvalidPayload, pyGet, Option.getD_some] at hti
    cases hph : st.phone with
    | none =>
      have hres : onAuthError st (Json.jobj l) t1 t2
          = (let pr := failPending { st with storeToken := Json.jnull }
               AuthFailMsg.phoneNotFound
             (pr.1, [AuthAction.aStoreSet (cp "token") Json.jnull,
                     AuthAction.aStoreSave] ++ pr.2)) := by
        simp only [onAuthError, pyGet, Option.getD_some]
        rw [if_pos hti]
        simp only [hph]
      rw [hres]
      refine ⟨?_, ?_, ?_⟩
      · unfold failPending
        split <;> rfl
      · unfold failPending
        split <;> rfl
      · intro _ fid hfut
        unfold failPending
        simp only [hfut]
        exact ⟨trivial, by simp⟩
    | some q =>
      by_cases hqe : q.isEmpty = true
      · have hres : onAuthError st (Json.jobj l) t1 t2
            = (let pr := failPending { st with storeToken := Json.jnull }
                 AuthFailMsg.phoneNotFound
               (pr.1, [AuthAction.aStoreSet (cp "token") Json.jnull,
                       AuthAction.aStoreSave] ++ pr.2)) := by
          simp only [onAuthError, pyGet, Option.getD_some]
          rw [if_pos hti]
          simp only [hph, hqe, if_true]
        rw [hres]
        refine ⟨?_, ?_, ?_⟩
        · unfold failPending
          split <;> rfl
        · unfold failPending
          split <;> rfl
        · intro _ fid hfut
          unfold failPending
          simp only [hfut]
          exact ⟨trivial, by simp⟩
      · have hres : onAuthError st (Json.jobj l) t1 t2
            = ({ st with
                  storeToken := Json.jnull,
                  conn := (runOp (runOp st.conn (ClientOp.opSendAuthStart q
                    (cp "ru"))).2 (ClientOp.opSendEvents (navEvents t1 t2))).2,
                  future := some ⟨st.nextFid, FStatus.pending⟩,
                  nextFid := st.nextFid + 1 },
               [AuthAction.aStoreSet (cp "token") Json.jnull, AuthAction.aStoreSave,
                AuthAction.aSend (runOp st.conn (ClientOp.opSendAuthStart q
                  (cp "ru"))).1,
                AuthAction.aSend (runOp (runOp st.conn (ClientOp.opSendAuthStart q
                  (cp "ru"))).2 (ClientOp.opSendEvents (navEvents t1 t2))).1,
                AuthAction.aCreateFuture st.nextFid,
                AuthAction.aAwaitTimeout st.nextFid AUTH_TIMEOUT]) := by
          simp only [onAuthError, pyGet, Option.getD_some]
          rw [if_pos hti]
          simp only [hph, hqe, Bool.false_eq_true, if_false]
          rfl
        rw [hres]
        refine ⟨rfl, rfl, ?_⟩
        intro hopt _ _
        simp [optTruthy, hqe] at hopt
  · intro hti fid hfut
    simp only [tokenInvalidPayload, pyGet, Option.getD_some] at hti
    have hres : onAuthError st (Json.jobj l) t1 t2
        = failPending st (AuthFailMsg.authErrorMsg
            ((jlookup l (cp "message")).getD Json.jnull)) := by
      simp only [onAuthError, pyGet, Option.getD_some]
      rw [if_neg (by simp [hti])]
    rw [hres]
    unfold failPending
    simp only [hfut]
    exact ⟨trivial, trivial⟩

/-- Witness for C5: one token-invalid `auth_error` with no known phone
fails the pending handle after clearing the token, and one unrelated
`auth_error` fails it with the event's message. -/
theorem auth_error_reaction_contract_witness :
    (tokenInvalidPayload (Json.jobj [(cp "error", Json.jstr (cp "login.token"))])
        = true ∧
     optTruthy (initAuthState 11 Json.jnull Json.jnull).phone = false) ∧
    ((onAuthError { initAuthState 11 Json.jnull Json.jnull with
        future := some ⟨0, FStatus.pending⟩ }
        (Json.jobj [(cp "error", Json.jstr (cp "login.token"))]) 0 0).1.future
      = some ⟨0, FStatus.failedWith AuthFailMsg.phoneNotFound⟩) ∧
    (tokenInvalidPayload (Json.jobj [(cp "error", Json.jstr (cp "other")),
        (cp "message", Json.jstr (cp "boom"))]) = false ∧
     (onAuthError { initAuthState 11 Json.jnull Json.jnull with
        future := some ⟨0, FStatus.pending⟩ }
        (Json.jobj [(cp "error", Json.jstr (cp "other")),
          (cp "message", Json.jstr (cp "boom"))]) 0 0).2
      = [AuthAction.aFailFuture 0 (AuthFailMsg.authErrorMsg
          (Json.jstr (cp "boom")))]) :=
  ⟨⟨rfl, rfl⟩,
   (((auth_error_reaction_contract
       { initAuthState 11 Json.jnull Json.jnull with
         future := some ⟨0, FStatus.pending⟩ }
       [(cp "error", Json.jstr (cp "login.token"))] 0 0).1 rfl).2.2 rfl 0 rfl).1,
   rfl,
   by
     have h := ((auth_error_reaction_contract
       { initAuthState 11 Json.jnull Json.jnull with
         future := some ⟨0, FStatus.pending⟩ }
       [(cp "error", Json.jstr (cp "other")),
        (cp "message", Json.jstr (cp "boom"))] 0 0).2 rfl 0 rfl).2
     simpa using h⟩

/-- C6: on `auth_code_checked`, if the nested path
`tokenAttrs.LOGIN.token` yields a (truthy) token `T`, the handler
persists `T` (store write then save) and then sends exactly one
non-interactive token-auth frame carrying `T`, leaving the pending
operation untouched; if the path yields no token, the handler does
nothing at all. -/
theorem auth_code_checked_contract (st : AuthState) (payload : Json) :
    (∀ T : Json, loginTokenOf payload = some T → T.truthy = true →
      ∃ fr : Frame,
        (onAuthCodeChecked st payload).2
          = [AuthAction.aStoreSet (cp "token") T, AuthAction.aStoreSave,
             AuthAction.aSend fr] ∧
        fr.opcode = 19 ∧ fr.cmd = 0 ∧
        fr.payload = sendAuthTokenPayload T false DEFAULT_CHATS_COUNT ∧
        (onAuthCodeChecked st payload).1.storeToken = T ∧
        (onAuthCodeChecked st payload).1.future = st.future ∧
        (onAuthCodeChecked st payload).2.countP isSendA = 1) ∧
    ((∀ T : Json, loginTokenOf payload = some T → T.truthy = false) →
      onAuthCodeChecked st payload = (st, [])) := by
  constructor
  · intro T hT htr
    cases hta : pyGetD payload (cp "tokenAttrs") (Json.jobj []) with
    | none => simp [loginTokenOf, hta] at hT
    | some ta =>
      cases hlg : pyGetD ta (cp "LOGIN") (Json.jobj []) with
      | none => simp [loginTokenOf, hta, hlg] at hT
      | some lg =>
        have hTok : pyGet lg (cp "token") = some T := by
          simpa [loginTokenOf, hta, hlg] using hT
        have hres : onAuthCodeChecked st payload
            = ({ st with
                  storeToken := T,
                  conn := (runOp st.conn (ClientOp.opSendAuthToken T false
                    DEFAULT_CHATS_COUNT)).2 },
               [AuthAction.aStoreSet (cp "token") T, AuthAction.aStoreSave,
                AuthAction.aSend (runOp st.conn (ClientOp.opSendAuthToken T false
                  DEFAULT_CHATS_COUNT)).1]) := by
          simp only [onAuthCodeChecked, hta, hlg, hTok, htr, if_true]
        exact ⟨_, by rw [hres], rfl, rfl, rfl, by rw [hres], by rw [hres],
          by rw [hres]; rfl⟩
  · intro hall
    cases hta : pyGetD payload (cp "tokenAttrs") (Json.jobj []) with
    | none => simp only [onAuthCodeChecked, hta]
    | some ta =>
      cases hlg : pyGetD ta (cp "LOGIN") (Json.jobj []) with
      | none => simp only [onAuthCodeChecked, hta, hlg]
      | some lg =>
        cases hTok : pyGet lg (cp "token") with
        | none => simp only [onAuthCodeChecked, hta, hlg, hTok]
        | some T =>
          have hf : T.truthy = false :=
            hall T (by simp [loginTokenOf, hta, hlg, hTok])
          simp only [onAuthCodeChecked, hta, hlg, hTok, hf,
            Bool.false_eq_true, if_false]

/-- Witness for C6: a concrete payload carrying a nested login token
leads to persist-then-send; a payload without one does nothing. -/
theorem auth_code_checked_contract_witness :
    (loginTokenOf (Json.jobj [(cp "tokenAttrs", Json.jobj [(cp "LOGIN",
        Json.jobj [(cp "token", Json.jstr (cp "T"))])])])
      = some (Json.jstr (cp "T")) ∧
     (Json.jstr (cp "T")).truthy = true) ∧
    (∃ fr : Frame,
      (onAuthCodeChecked (initAuthState 11 Json.jnull Json.jnull)
          (Json.jobj [(cp "tokenAttrs", Json.jobj [(cp "LOGIN",
            Json.jobj [(cp "token", Json.jstr (cp "T"))])])])).2
        = [AuthAction.aStoreSet (cp "token") (Json.jstr (cp "T")),
           AuthAction.aStoreSave, AuthAction.aSend fr] ∧
      fr.opcode = 19 ∧ fr.cmd = 0 ∧
      fr.payload = sendAuthTokenPayload (Json.jstr (cp "T")) false
        DEFAULT_CHATS_COUNT ∧
      (onAuthCodeChecked (initAuthState 11 Json.jnull Json.jnull)
          (Json.jobj [(cp "tokenAttrs", Json.jobj [(cp "LOGIN",
            Json.jobj [(cp "token", Json.jstr (cp "T"))])])])).1.storeToken
        = Json.jstr (cp "T") ∧
      (onAuthCodeChecked (initAuthState 11 Json.jnull Json.jnull)
          (Json.jobj [(cp "tokenAttrs", Json.jobj [(cp "LOGIN",
            Json.jobj [(cp "token", Json.jstr (cp "T"))])])])).1.future
        = (initAuthState 11 Json.jnull Json.jnull).future ∧
      (onAuthCodeChecked (initAuthState 11 Json.jnull Json.jnull)
          (Json.jobj [(cp "tokenAttrs", Json.jobj [(cp "LOGIN",
            Json.jobj [(cp "token", Json.jstr (cp "T"))])])])).2.countP isSendA
        = 1) ∧
    onAuthCodeChecked (initAuthState 11 Json.jnull Json.jnull)
        (Json.jobj [(cp "other", Json.jnum 1)])
      = (initAuthState 11 Json.jnull Json.jnull, []) :=
  ⟨⟨rfl, rfl⟩,
   (auth_code_checked_contract (initAuthState 11 Json.jnull Json.jnull)
       (Json.jobj [(cp "tokenAttrs", Json.jobj [(cp "LOGIN",
         Json.jobj [(cp "token", Json.jstr (cp "T"))])])])).1
     (Json.jstr (cp "T")) rfl rfl,
   (auth_code_checked_contract (initAuthState 11 Json.jnull Json.jnull)
       (Json.jobj [(cp "other", Json.jnum 1)])).2
     (fun T hT => by
       have h := hT
       rw [show loginTokenOf (Json.jobj [(cp "other", Json.jnum 1)])
            = some Json.jnull from rfl] at h
       obtain rfl : Json.jnull = T := Option.some.inj h
       rfl)⟩

/-- Shape of one auth-engine step with respect to the pending-operation
slot: it either leaves the slot alone (no creation, no settlement), or
creates one fresh handle numbered `st.nextFid`, or settles the handle
currently pending in the slot. -/
theorem authStep_slot_shape (st : AuthState) (e : AuthEvent) :
    (createdFids (authStep st e).2 = [] ∧ settledFids (authStep st e).2 = [] ∧
     (authStep st e).1.future = st.future ∧
     (authStep st e).1.nextFid = st.nextFid) ∨
    (createdFids (authStep st e).2 = [st.nextFid] ∧
     settledFids (authStep st e).2 = [] ∧
     (authStep st e).1.future = some ⟨st.nextFid, FStatus.pending⟩ ∧
     (authStep st e).1.nextFid = st.nextFid + 1) ∨
    (∃ fid, st.future = some ⟨fid, FStatus.pending⟩ ∧
     createdFids (authStep st e).2 = [] ∧
     settledFids (authStep st e).2 = [fid] ∧
     (authStep st e).1.nextFid = st.nextFid ∧
     ∀ h : FutureH, (authStep st e).1.future = some h →
       h.fid = fid ∧ h.status ≠ FStatus.pending) := by
  cases e <;>
    simp only [authStep, authenticate, onAuthSuccess, onAuthCodeRequested,
      onAuthCodeChecked, onAuthError, onAuthCodeError, failPending] <;>
    (repeat' split) <;>
    first
      | exact Or.inl ⟨rfl, rfl, rfl, rfl⟩
      | exact Or.inr (Or.inl ⟨rfl, rfl, rfl, rfl⟩)
      | (rename_i fid hfut
         refine Or.inr (Or.inr ⟨fid, ?_, ?_, ?_, ?_, ?_⟩)
         · first | exact hfut | (split at hfut <;> exact hfut)
         · first | rfl | (split <;> rfl)
         · first | rfl | (split <;> rfl)
         · first | rfl | (split <;> rfl)
         · intro h hh
           injection hh with h2
           cases h2
           exact ⟨rfl, fun hc => by cases hc⟩)
      | (rename_i fid hfut _
         refine Or.inr (Or.inr ⟨fid, ?_, ?_, ?_, ?_, ?_⟩)
         · first | exact hfut | (split at hfut <;> exact hfut)
         · first | rfl | (split <;> rfl)
         · first | rfl | (split <;> rfl)
         · first | rfl | (split <;> rfl)
         · intro h hh
           injection hh with h2
           cases h2
           exact ⟨rfl, fun hc => by cases hc⟩)

/-- A create action in a trace shows up among the created handles. -/
theorem mem_createdFids (tr : List AuthAction) (fid : Nat)
    (h : AuthAction.aCreateFuture fid ∈ tr) : fid ∈ createdFids tr :=
  List.mem_filterMap.mpr ⟨AuthAction.aCreateFuture fid, h, rfl⟩

/-- One auth-engine step preserves the single-slot invariant. -/
theorem slotInv_step (st : AuthState) (tr : List AuthAction) (e : AuthEvent)
    (h : SlotInv st tr) : SlotInv (authStep st e).1 (tr ++ (authStep st e).2) := by
  obtain ⟨hsN, hcN, hsB, hcB, hslotB, hp⟩ := h
  have hsApp : settledFids (tr ++ (authStep st e).2)
      = settledFids tr ++ settledFids (authStep st e).2 :=
    List.filterMap_append _ _ _
  have hcApp : createdFids (tr ++ (authStep st e).2)
      = createdFids tr ++ createdFids (authStep st e).2 :=
    List.filterMap_append _ _ _
  rcases authStep_slot_shape st e with
    ⟨hc, hs, hf, hn⟩ | ⟨hc, hs, hf, hn⟩ | ⟨fid, hfut, hc, hs, hn, hf⟩
  · refine ⟨?_, ?_, ?_, ?_, ?_, ?_⟩
    · rw [hsApp, hs, List.append_nil]; exact hsN
    · rw [hcApp, hc, List.append_nil]; exact hcN
    · rw [hsApp, hs, List.append_nil, hn]; exact hsB
    · rw [hcApp, hc, List.append_nil, hn]; exact hcB
    · rw [hf, hn]; exact hslotB
    · rw [hf, hsApp, hs, List.append_nil]; exact hp
  · refine ⟨?_, ?_, ?_, ?_, ?_, ?_⟩
    · rw [hsApp, hs, List.append_nil]; exact hsN
    · rw [hcApp, hc]
      refine List.Nodup.append hcN (List.nodup_singleton _) ?_
      intro a ha hb
      rw [List.mem_singleton] at hb
      subst hb
      exact absurd (hcB _ ha) (by omega)
    · rw [hsApp, hs, List.append_nil, hn]
      intro fid hfid
      exact Nat.lt_succ_of_lt (hsB fid hfid)
    · rw [hcApp, hc, hn]
      intro fid hfid
      rcases List.mem_append.mp hfid with hl | hr
      · exact Nat.lt_succ_of_lt (hcB fid hl)
      · rw [List.mem_singleton] at hr
        omega
    · rw [hf, hn]
      intro hh hhh
      injection hhh with h2
      cases h2
      exact Nat.lt_succ_self _
    · rw [hf, hsApp, hs, List.append_nil]
      intro hh hhh _
      injection hhh with h2
      cases h2
      intro hmem
      exact absurd (hsB _ hmem) (by change ¬ (st.nextFid < st.nextFid); omega)
  · have hfidB : fid < st.nextFid := hslotB ⟨fid, FStatus.pending⟩ hfut
    have hfresh : fid ∉ settledFids tr := hp ⟨fid, FStatus.pending⟩ hfut rfl
    refine ⟨?_, ?_, ?_, ?_, ?_, ?_⟩
    · rw [hsApp, hs]
      refine List.Nodup.append hsN (List.nodup_singleton _) ?_
      intro a ha hb
      rw [List.mem_singleton] at hb
      subst hb
      exact hfresh ha
    · rw [hcApp, hc, List.append_nil]; exact hcN
    · rw [hsApp, hs, hn]
      intro g hg
      rcases List.mem_append.mp hg with hl | hr
      · exact hsB g hl
      · rw [List.mem_singleton] at hr
        omega
    · rw [hcApp, hc, List.append_nil, hn]; exact hcB
    · intro hh hhh
      rw [hn]
      rw [(hf hh hhh).1]
      exact hfidB
    · intro hh hhh hpend
      exact absurd hpend (hf hh hhh).2

/-- The single-slot invariant holds along every run. -/
theorem slotInv_run (evs : List AuthEvent) (st : AuthState)
    (tr : List AuthAction) (h : SlotInv st tr) :
    SlotInv (authRun st evs).1 (tr ++ (authRun st evs).2) := by
  induction evs generalizing st tr with
  | nil => simpa [authRun] using h
  | cons e t ih =>
    have hr1 : (authRun st (e :: t)).1 = (authRun (authStep st e).1 t).1 := rfl
    have hr2 : (authRun st (e :: t)).2
        = (authStep st e).2 ++ (authRun (authStep st e).1 t).2 := rfl
    rw [hr1, hr2, ← List.append_assoc]
    exact ih (authStep st e).1 (tr ++ (authStep st e).2) (slotInv_step st tr e h)

/-- Counterexample to C1: starting a fresh manager, a phone
authentication followed by a token-invalid `auth_error` leaves two
outstanding pending operations — the reauthentication path creates a
fresh handle while the one created by `authenticate()` is still
unresolved (and that first handle is never resolved or failed). -/
theorem pending_slot_counterexample :
    (outstanding (authRun (initAuthState 11 Json.jnull Json.jnull)
        [AuthEvent.evAuthenticate (some (cp "79001234567")) none 0 0,
         AuthEvent.evAuthError (Json.jobj [(cp "error",
           Json.jstr (cp "login.token"))]) 0 0]).2).length = 2 ∧
    ¬ ((outstanding (authRun (initAuthState 11 Json.jnull Json.jnull)
        [AuthEvent.evAuthenticate (some (cp "79001234567")) none 0 0,
         AuthEvent.evAuthError (Json.jobj [(cp "error",
           Json.jstr (cp "login.token"))]) 0 0]).2).length ≤ 1) :=
  ⟨by decide, by decide⟩

/-- C1 (amended): each pending-operation handle is created fresh (all
created handles are distinct) and is resolved or failed at most once;
however, the engine can create a new pending operation while an earlier
one is still unresolved: among the event handlers this happens exactly
in the token-invalid `auth_error` path with a known phone (the slot is
replaced and the earlier handle abandoned), besides a fresh call to
`authenticate` itself. -/
theorem pending_slot_at_most_once (ver : Int) (tok pho : Json)
    (evs : List AuthEvent) :
    ((settledFids (authRun (initAuthState ver tok pho) evs).2).Nodup ∧
     (createdFids (authRun (initAuthState ver tok pho) evs).2).Nodup) ∧
    (∀ (st : AuthState) (e : AuthEvent) (fid : Nat),
      AuthAction.aCreateFuture fid ∈ (authStep st e).2 →
      (∃ h : FutureH, st.future = some h ∧ h.status = FStatus.pending) →
      (∃ p cb t1 t2, e = AuthEvent.evAuthenticate p cb t1 t2) ∨
      (∃ payload t1 t2, e = AuthEvent.evAuthError payload t1 t2 ∧
        tokenInvalidPayload payload = true ∧ optTruthy st.phone = true)) := by
  constructor
  · have hinit : SlotInv (initAuthState ver tok pho) [] := by
      refine ⟨List.nodup_nil, List.nodup_nil, ?_, ?_, ?_, ?_⟩ <;>
        simp [settledFids, createdFids, initAuthState]
    have := slotInv_run evs (initAuthState ver tok pho) [] hinit
    rw [List.nil_append] at this
    exact ⟨this.1, this.2.1⟩
  · intro st e fid hmem _
    have hcmem := mem_createdFids _ fid hmem
    cases e with
    | evAuthenticate p cb t1 t2 => exact Or.inl ⟨p, cb, t1, t2, rfl⟩
    | evAuthSuccess payload =>
      have : createdFids (authStep st (AuthEvent.evAuthSuccess payload)).2 = [] := by
        simp only [authStep, onAuthSuccess]
        (repeat' split) <;> rfl
      rw [this] at hcmem
      cases hcmem
    | evAuthCodeRequested payload =>
      have : createdFids (authStep st
          (AuthEvent.evAuthCodeRequested payload)).2 = [] := by
        simp only [authStep, onAuthCodeRequested]
        (repeat' split) <;> rfl
      rw [this] at hcmem
      cases hcmem
    | evAuthCodeChecked payload =>
      have : createdFids (authStep st
          (AuthEvent.evAuthCodeChecked payload)).2 = [] := by
        simp only [authStep, onAuthCodeChecked]
        (repeat' split) <;> rfl
      rw [this] at hcmem
      cases hcmem
    | evAuthCodeError payload =>
      have : createdFids (authStep st
          (AuthEvent.evAuthCodeError payload)).2 = [] := by
        simp only [authStep, onAuthCodeError, failPending]
        (repeat' split) <;> rfl
      rw [this] at hcmem
      cases hcmem
    | evAuthError payload t1 t2 =>
      refine Or.inr ⟨payload, t1, t2, rfl, ?_⟩
      revert hcmem
      simp only [authStep, onAuthError, failPending]
      (repeat' split) <;> intro hcmem <;>
        first
          | (exfalso; simp [createdFids] at hcmem; done)
          | (constructor
             · simp_all [tokenInvalidPayload, Option.getD_some]
             · simp_all [optTruthy])

/-- Witness for the amended C1: the two-event counterexample run has
duplicate-free settled and created handles, and the concrete reauth
step that creates handle 1 while handle 0 is pending is indeed the
token-invalid `auth_error` path with a known phone. -/
theorem pending_slot_at_most_once_witness :
    ((settledFids (authRun (initAuthState 11 Json.jnull Json.jnull)
        [AuthEvent.evAuthenticate (some (cp "79001234567")) none 0 0,
         AuthEvent.evAuthError (Json.jobj [(cp "error",
           Json.jstr (cp "login.token"))]) 0 0]).2).Nodup ∧
     (createdFids (authRun (initAuthState 11 Json.jnull Json.jnull)
        [AuthEvent.evAuthenticate (some (cp "79001234567")) none 0 0,
         AuthEvent.evAuthError (Json.jobj [(cp "error",
           Json.jstr (cp "login.token"))]) 0 0]).2).Nodup) ∧
    ((∃ p cb t1 t2,
        AuthEvent.evAuthError (Json.jobj [(cp "error",
          Json.jstr (cp "login.token"))]) 0 0
          = AuthEvent.evAuthenticate p cb t1 t2) ∨
     (∃ payload t1 t2,
        AuthEvent.evAuthError (Json.jobj [(cp "error",
          Json.jstr (cp "login.token"))]) 0 0
          = AuthEvent.evAuthError payload t1 t2 ∧
        tokenInvalidPayload payload = true ∧
        optTruthy (authRun (initAuthState 11 Json.jnull Json.jnull)
          [AuthEvent.evAuthenticate (some (cp "79001234567")) none 0 0]).1.phone
          = true)) :=
  ⟨(pending_slot_at_most_once 11 Json.jnull Json.jnull
      [AuthEvent.evAuthenticate (some (cp "79001234567")) none 0 0,
       AuthEvent.evAuthError (Json.jobj [(cp "error",
         Json.jstr (cp "login.token"))]) 0 0]).1,
   (pending_slot_at_most_once 11 Json.jnull Json.jnull []).2
     (authRun (initAuthState 11 Json.jnull Json.jnull)
       [AuthEvent.evAuthenticate (some (cp "79001234567")) none 0 0]).1
     (AuthEvent.evAuthError (Json.jobj [(cp "error",
       Json.jstr (cp "login.token"))]) 0 0)
     1
     (List.Mem.tail _ (List.Mem.tail _ (List.Mem.tail _ (List.Mem.tail _
       (List.Mem.head _)))))
     ⟨⟨0, FStatus.pending⟩, rfl, rfl⟩⟩

/-! ## Codec round-trip lemmas -/

/-- Skipping whitespace stops at a non-whitespace head. -/
theorem skipWs_cons_neg (c : Nat) (r : List Nat) (h : isWsCp c = false) :
    skipWs (c :: r) = c :: r := by
  simp [skipWs, List.dropWhile_cons, h]

/-- Skipping whitespace consumes a space. -/
theorem skipWs_cons_space (r : List Nat) : skipWs (32 :: r) = skipWs r := by
  simp [skipWs, List.dropWhile_cons, isWsCp]

/-- A printed natural number is nonempty. -/
theorem printNat_ne_nil (n : Nat) : printNat n ≠ [] := by
  unfold printNat
  split
  · simp
  · rename_i h
    intro hc
    simp only [List.map_eq_nil_iff, List.reverse_eq_nil_iff] at hc
    exact Nat.digits_ne_nil_iff_ne_zero.mpr h hc

/-- Every character of a printed natural number is a decimal digit. -/
theorem printNat_digitRange (n : Nat) : ∀ c ∈ printNat n, 48 ≤ c ∧ c ≤ 57 := by
  intro c hc
  unfold printNat at hc
  split at hc
  · simp only [List.mem_singleton] at hc
    omega
  · simp only [List.mem_map, List.mem_reverse] at hc
    obtain ⟨d, hd, rfl⟩ := hc
    have := Nat.digits_lt_base (by norm_num) hd
    omega

/-- Folding most-significant-first digits equals `Nat.ofDigits` on the
little-endian list. -/
theorem foldl_reverse_digits (L : List Nat) (a : Nat) :
    L.reverse.foldl (fun acc d => acc * 10 + d) a
      = a * 10 ^ L.length + Nat.ofDigits 10 L := by
  induction L generalizing a with
  | nil => simp
  | cons d T ih =>
    simp only [List.reverse_cons, List.foldl_append, List.foldl_cons,
      List.foldl_nil, ih, Nat.ofDigits_cons, List.length_cons]
    ring

/-- Reading back the digits of a printed natural number gives it back. -/
theorem digitsVal_printNat (n : Nat) :
    digitsVal ((printNat n).map (fun c => c - 48)) = n := by
  unfold printNat
  split
  · rename_i h
    subst h
    rfl
  · rw [List.map_map]
    rw [show ((fun c => c - 48) ∘ (fun d => (48 : Nat) + d)) = id from
      funext fun d => by simp]
    rw [List.map_id]
    unfold digitsVal
    rw [foldl_reverse_digits]
    simp [Nat.ofDigits_digits]

/-- `takeWhile`/`dropWhile` on a block that satisfies the predicate
followed by a failing head. -/
theorem takeWhile_dropWhile_append (p : Nat → Bool) (xs rest : List Nat)
    (h : ∀ x ∈ xs, p x = true)
    (h2 : ∀ c, rest.head? = some c → p c = false) :
    (xs ++ rest).takeWhile p = xs ∧ (xs ++ rest).dropWhile p = rest := by
  induction xs with
  | nil =>
    simp only [List.nil_append]
    cases rest with
    | nil => simp
    | cons c t =>
      have := h2 c rfl
      simp [List.takeWhile_cons, List.dropWhile_cons, this]
  | cons x t ih =>
    have hx : p x = true := h x (by simp)
    have hih := ih (fun y hy => h y (by simp [hy]))
    simp [List.takeWhile_cons, List.dropWhile_cons, hx, hih.1, hih.2]

/-- The greedy digit parser reads back exactly a printed natural number. -/
theorem parseDigits_printNat (n : Nat) (rest : List Nat) (hrest : SepOk rest) :
    parseDigits (printNat n ++ rest) = some (n, rest) := by
  have hall : ∀ x ∈ printNat n, isDigitCp x = true := by
    intro x hx
    have := printNat_digitRange n x hx
    simp only [isDigitCp, Bool.and_eq_true, decide_eq_true_eq]
    omega
  have hhead : ∀ c, rest.head? = some c → isDigitCp c = false := by
    cases rest with
    | nil => intro c hc; cases hc
    | cons c t =>
      intro c' hc'
      cases hc'
      exact hrest
  obtain ⟨ht, hd⟩ := takeWhile_dropWhile_append isDigitCp (printNat n) rest hall hhead
  unfold parseDigits
  simp only [ht, hd]
  rw [if_neg (by simpa [List.isEmpty_iff] using printNat_ne_nil n)]
  rw [digitsVal_printNat]

/-- The number parser reads back exactly a printed integer. -/
theorem parseNum_printInt (i : Int) (rest : List Nat) (hrest : SepOk rest) :
    parseNum (printInt i ++ rest) = some (i, rest) := by
  unfold printInt
  split
  · rename_i hneg
    rw [List.cons_append]
    rw [show parseNum (45 :: (printNat i.natAbs ++ rest))
        = (parseDigits (printNat i.natAbs ++ rest)).map
            (fun p => (-(p.1 : Int), p.2)) from rfl]
    rw [parseDigits_printNat _ _ hrest]
    have : -((i.natAbs : Nat) : Int) = i := by omega
    simp only [Option.map, this]
  · rename_i hpos
    obtain ⟨c, t, hct⟩ : ∃ c t, printNat i.natAbs = c :: t := by
      cases h : printNat i.natAbs with
      | nil => exact absurd h (printNat_ne_nil _)
      | cons c t => exact ⟨c, t, rfl⟩
    rw [hct, List.cons_append]
    have hc : 48 ≤ c ∧ c ≤ 57 := printNat_digitRange _ c (by rw [hct]; simp)
    rw [show parseNum (c :: (t ++ rest))
        = if c = 45 then (parseDigits (t ++ rest)).map
            (fun p => (-(p.1 : Int), p.2))
          else (parseDigits (c :: (t ++ rest))).map
            (fun p => ((p.1 : Int), p.2)) from rfl]
    rw [if_neg (show ¬ c = 45 by omega)]
    rw [← List.cons_append, ← hct, parseDigits_printNat _ _ hrest]
    have : ((i.natAbs : Nat) : Int) = i := by omega
    simp only [Option.map, this]

/-- A printed hex digit is read back. -/
theorem hexVal_hexDigitCp (m : Nat) (h : m < 16) :
    hexVal (hexDigitCp m) = some m := by
  unfold hexVal hexDigitCp
  by_cases hm : m < 10
  · rw [if_pos hm, if_pos (by omega)]
    have : 48 + m - 48 = m := by omega
    rw [this]
  · rw [if_neg hm, if_neg (by omega), if_pos (by omega)]
    have : 87 + m - 87 = m := by omega
    rw [this]

/-- A printed four-digit hex block is read back. -/
theorem hex4Val_hex4 (n : Nat) (h : n < 65536) :
    hex4Val (hexDigitCp (n / 4096 % 16)) (hexDigitCp (n / 256 % 16))
      (hexDigitCp (n / 16 % 16)) (hexDigitCp (n % 16)) = some n := by
  unfold hex4Val
  rw [hexVal_hexDigitCp _ (Nat.mod_lt _ (by norm_num)),
      hexVal_hexDigitCp _ (Nat.mod_lt _ (by norm_num)),
      hexVal_hexDigitCp _ (Nat.mod_lt _ (by norm_num)),
      hexVal_hexDigitCp _ (Nat.mod_lt _ (by norm_num))]
  show some (n / 4096 % 16 * 4096 + n / 256 % 16 * 256 + n / 16 % 16 * 16 + n % 16)
      = some n
  have : n / 4096 % 16 * 4096 + n / 256 % 16 * 256 + n / 16 % 16 * 16 + n % 16
      = n := by omega
  rw [this]

/-- One step of the string parser at a `\uXXXX` escape whose value is
outside the high-surrogate range. -/
theorem parseStrBody_hex_step (f a b c d : Nat) (X : List Nat) (n : Nat)
    (hv : hex4Val a b c d = some n) (hns : ¬(55296 ≤ n ∧ n ≤ 56319)) :
    parseStrBody (f + 1) (92 :: 117 :: a :: b :: c :: d :: X)
      = (parseStrBody f X).map (fun p => (n :: p.1, p.2)) := by
  have h0 : parseStrBody (f + 1) (92 :: 117 :: a :: b :: c :: d :: X)
      = match hex4Val a b c d with
        | none => none
        | some m =>
          if 55296 ≤ m ∧ m ≤ 56319 then
            match X with
            | 92 :: 117 :: g1 :: g2 :: g3 :: g4 :: r3 =>
              match hex4Val g1 g2 g3 g4 with
              | some m2 =>
                if 56320 ≤ m2 ∧ m2 ≤ 57343 then
                  (parseStrBody f r3).map
                    (fun p => ((65536 + (m - 55296) * 1024 + (m2 - 56320)) :: p.1, p.2))
                else (parseStrBody f X).map (fun p => (m :: p.1, p.2))
              | none => (parseStrBody f X).map (fun p => (m :: p.1, p.2))
            | _ => (parseStrBody f X).map (fun p => (m :: p.1, p.2))
          else (parseStrBody f X).map (fun p => (m :: p.1, p.2)) := rfl
  rw [h0]
  simp only [hv]
  rw [if_neg hns]

/-- One step of the string parser at a surrogate-pair escape. -/
theorem parseStrBody_pair_step (f a b c d a2 b2 c2 d2 : Nat) (X : List Nat)
    (hi lo : Nat) (hva : hex4Val a b c d = some hi)
    (hvb : hex4Val a2 b2 c2 d2 = some lo)
    (hhi : 55296 ≤ hi ∧ hi ≤ 56319) (hlo : 56320 ≤ lo ∧ lo ≤ 57343) :
    parseStrBody (f + 1)
        (92 :: 117 :: a :: b :: c :: d :: 92 :: 117 :: a2 :: b2 :: c2 :: d2 :: X)
      = (parseStrBody f X).map
          (fun p => ((65536 + (hi - 55296) * 1024 + (lo - 56320)) :: p.1, p.2)) := by
  have h0 : parseStrBody (f + 1)
        (92 :: 117 :: a :: b :: c :: d :: 92 :: 117 :: a2 :: b2 :: c2 :: d2 :: X)
      = match hex4Val a b c d with
        | none => none
        | some m =>
          if 55296 ≤ m ∧ m ≤ 56319 then
            match (92 :: 117 :: a2 :: b2 :: c2 :: d2 :: X : List Nat) with
            | 92 :: 117 :: g1 :: g2 :: g3 :: g4 :: r3 =>
              match hex4Val g1 g2 g3 g4 with
              | some m2 =>
                if 56320 ≤ m2 ∧ m2 ≤ 57343 then
                  (parseStrBody f r3).map
                    (fun p => ((65536 + (m - 55296) * 1024 + (m2 - 56320)) :: p.1, p.2))
                else (parseStrBody f (92 :: 117 :: a2 :: b2 :: c2 :: d2 :: X)).map
                  (fun p => (m :: p.1, p.2))
              | none => (parseStrBody f (92 :: 117 :: a2 :: b2 :: c2 :: d2 :: X)).map
                  (fun p => (m :: p.1, p.2))
            | _ => (parseStrBody f (92 :: 117 :: a2 :: b2 :: c2 :: d2 :: X)).map
                (fun p => (m :: p.1, p.2))
          else (parseStrBody f (92 :: 117 :: a2 :: b2 :: c2 :: d2 :: X)).map
              (fun p => (m :: p.1, p.2)) := rfl
  rw [h0]
  simp only [hva]
  rw [if_pos hhi]
  simp only [hvb]
  rw [if_pos hlo]

/-- One `\uXXXX` escape outside the surrogate range is read back. -/
theorem parseStrBody_u (f n : Nat) (hn : n < 65536)
    (hns : ¬(55296 ≤ n ∧ n ≤ 56319)) (X : List Nat) :
    parseStrBody (f + 1) (92 :: 117 :: (hex4 n ++ X))
      = (parseStrBody f X).map (fun p => (n :: p.1, p.2)) := by
  rw [show (92 : Nat) :: 117 :: (hex4 n ++ X)
      = 92 :: 117 :: hexDigitCp (n / 4096 % 16) :: hexDigitCp (n / 256 % 16) ::
        hexDigitCp (n / 16 % 16) :: hexDigitCp (n % 16) :: X from rfl]
  exact parseStrBody_hex_step f _ _ _ _ X n (hex4Val_hex4 n hn) hns

/-- A surrogate-pair escape is combined back into its astral code point. -/
theorem parseStrBody_u_pair (f hi lo : Nat)
    (hhi : 55296 ≤ hi ∧ hi ≤ 56319) (hlo : 56320 ≤ lo ∧ lo ≤ 57343)
    (X : List Nat) :
    parseStrBody (f + 1) (92 :: 117 :: (hex4 hi ++ (92 :: 117 :: (hex4 lo ++ X))))
      = (parseStrBody f X).map
          (fun p => ((65536 + (hi - 55296) * 1024 + (lo - 56320)) :: p.1, p.2)) := by
  rw [show (92 : Nat) :: 117 :: (hex4 hi ++ (92 :: 117 :: (hex4 lo ++ X)))
      = 92 :: 117 :: hexDigitCp (hi / 4096 % 16) :: hexDigitCp (hi / 256 % 16) ::
        hexDigitCp (hi / 16 % 16) :: hexDigitCp (hi % 16) ::
        92 :: 117 :: hexDigitCp (lo / 4096 % 16) :: hexDigitCp (lo / 256 % 16) ::
        hexDigitCp (lo / 16 % 16) :: hexDigitCp (lo % 16) :: X from rfl]
  exact parseStrBody_pair_step f _ _ _ _ _ _ _ _ X hi lo
    (hex4Val_hex4 hi (by omega)) (hex4Val_hex4 lo (by omega)) hhi hlo

/-- A raw (unescaped, non-control) character is read back. -/
theorem parseStrBody_raw (f c : Nat) (h1 : ¬ c = 34) (h2 : ¬ c = 92)
    (h3 : ¬ c < 32) (X : List Nat) :
    parseStrBody (f + 1) (c :: X)
      = (parseStrBody f X).map (fun p => (c :: p.1, p.2)) := by
  simp only [parseStrBody]
  rw [if_neg h1, if_neg h2, if_neg h3]

set_option maxHeartbeats 1600000 in
/-- The string-body parser reads back an escaped, quoted string body.
Fuel one past the character count suffices. -/
theorem parseStrBody_print (s : List Nat) : ∀ (f : Nat) (rest : List Nat),
    wfStr s = true → s.length + 1 ≤ f →
    parseStrBody f (escapeStr s ++ 34 :: rest) = some (s, rest) := by
  induction s with
  | nil =>
    intro f rest _ hf
    obtain ⟨f', rfl⟩ : ∃ f', f = f' + 1 := ⟨f - 1, by omega⟩
    rfl
  | cons c t ih =>
    intro f rest hwf hf
    obtain ⟨f', rfl⟩ : ∃ f', f = f' + 1 := ⟨f - 1, by omega⟩
    have hwfc : scalarCp c = true := by
      simp only [wfStr, List.all_cons, Bool.and_eq_true] at hwf
      exact hwf.1
    have hwft : wfStr t = true := by
      simp only [wfStr, List.all_cons, Bool.and_eq_true] at hwf
      exact hwf.2
    have hft : t.length + 1 ≤ f' := by
      simp only [List.length_cons] at hf
      omega
    have hscalar : c < 55296 ∨ (57344 ≤ c ∧ c < 1114112) := by
      simp only [scalarCp, Bool.or_eq_true, Bool.and_eq_true,
        decide_eq_true_eq] at hwfc
      omega
    rw [show escapeStr (c :: t) = escapeCp c ++ escapeStr t from rfl]
    unfold escapeCp
    split_ifs with h34 h92 h8 h9 h10 h12 h13 hlt32 hlt127 hlt65536
    · subst h34
      rw [List.append_assoc]
      rw [show parseStrBody (f' + 1)
          ([92, 34] ++ (escapeStr t ++ 34 :: rest))
          = (parseStrBody f' (escapeStr t ++ 34 :: rest)).map
              (fun p => ((34 : Nat) :: p.1, p.2)) from rfl]
      rw [ih f' rest hwft hft]
      rfl
    · subst h92
      rw [List.append_assoc]
      rw [show parseStrBody (f' + 1)
          ([92, 92] ++ (escapeStr t ++ 34 :: rest))
          = (parseStrBody f' (escapeStr t ++ 34 :: rest)).map
              (fun p => ((92 : Nat) :: p.1, p.2)) from rfl]
      rw [ih f' rest hwft hft]
      rfl
    · subst h8
      rw [List.append_assoc]
      rw [show parseStrBody (f' + 1)
          ([92, 98] ++ (escapeStr t ++ 34 :: rest))
          = (parseStrBody f' (escapeStr t ++ 34 :: rest)).map
              (fun p => ((8 : Nat) :: p.1, p.2)) from rfl]
      rw [ih f' rest hwft hft]
      rfl
    · subst h9
      rw [List.append_assoc]
      rw [show parseStrBody (f' + 1)
          ([92, 116] ++ (escapeStr t ++ 34 :: rest))
          = (parseStrBody f' (escapeStr t ++ 34 :: rest)).map
              (fun p => ((9 : Nat) :: p.1, p.2)) from rfl]
      rw [ih f' rest hwft hft]
      rfl
    · subst h10
      rw [List.append_assoc]
      rw [show parseStrBody (f' + 1)
          ([92, 110] ++ (escapeStr t ++ 34 :: rest))
          = (parseStrBody f' (escapeStr t ++ 34 :: rest)).map
              (fun p => ((10 : Nat) :: p.1, p.2)) from rfl]
      rw [ih f' rest hwft hft]
      rfl
    · subst h12
      rw [List.append_assoc]
      rw [show parseStrBody (f' + 1)
          ([92, 102] ++ (escapeStr t ++ 34 :: rest))
          = (parseStrBody f' (escapeStr t ++ 34 :: rest)).map
              (fun p => ((12 : Nat) :: p.1, p.2)) from rfl]
      rw [ih f' rest hwft hft]
      rfl
    · subst h13
      rw [List.append_assoc]
      rw [show parseStrBody (f' + 1)
          ([92, 114] ++ (escapeStr t ++ 34 :: rest))
          = (parseStrBody f' (escapeStr t ++ 34 :: rest)).map
              (fun p => ((13 : Nat) :: p.1, p.2)) from rfl]
      rw [ih f' rest hwft hft]
      rfl
    · refine (parseStrBody_u f' c (by omega) (by omega)
        (escapeStr t ++ 34 :: rest)).trans ?_
      rw [ih f' rest hwft hft]
      rfl
    · refine (parseStrBody_raw f' c h34 h92 (by omega)
        (escapeStr t ++ 34 :: rest)).trans ?_
      rw [ih f' rest hwft hft]
      rfl
    · refine (parseStrBody_u f' c (by omega) (by omega)
        (escapeStr t ++ 34 :: rest)).trans ?_
      rw [ih f' rest hwft hft]
      rfl
    · refine (parseStrBody_u_pair f' (55296 + (c - 65536) / 1024)
        (56320 + (c - 65536) % 1024) (by omega) (by omega)
        (escapeStr t ++ 34 :: rest)).trans ?_
      rw [ih f' rest hwft hft]
      have : 65536 + (55296 + (c - 65536) / 1024 - 55296) * 1024 +
          (56320 + (c - 65536) % 1024 - 56320) = c := by omega
      rw [this]
      rfl

/-- Skipping whitespace is idempotent. -/
theorem skipWs_skipWs (s : List Nat) : skipWs (skipWs s) = skipWs s := by
  induction s with
  | nil => rfl
  | cons c r ih =>
    by_cases h : isWsCp c = true
    · simpa [skipWs, List.dropWhile_cons, h] using ih
    · simp [skipWs, List.dropWhile_cons, h]

/-- The value parser only looks at its input after whitespace. -/
theorem parseVal_eq_skip (f : Nat) (s : List Nat) :
    parseVal (f + 1) s = parseVal (f + 1) (skipWs s) := by
  simp only [parseVal, skipWs_skipWs]

/-- A number never starts with whitespace. -/
theorem isNumStart_not_ws (c : Nat) (h : isNumStartCp c = true) :
    isWsCp c = false := by
  simp only [isNumStartCp, isDigitCp, Bool.or_eq_true, Bool.and_eq_true,
    decide_eq_true_eq] at h
  simp only [isWsCp, Bool.or_eq_false_iff, decide_eq_false_iff_not]
  omega

/-- One parser step on the `null` literal. -/
theorem parseVal_null (f : Nat) (X : List Nat) :
    parseVal (f + 1) (110 :: 117 :: 108 :: 108 :: X) = some (Json.jnull, X) := rfl

/-- One parser step on the `true` literal. -/
theorem parseVal_true (f : Nat) (X : List Nat) :
    parseVal (f + 1) (116 :: 114 :: 117 :: 101 :: X)
      = some (Json.jbool true, X) := rfl

/-- One parser step on the `false` literal. -/
theorem parseVal_false (f : Nat) (X : List Nat) :
    parseVal (f + 1) (102 :: 97 :: 108 :: 115 :: 101 :: X)
      = some (Json.jbool false, X) := rfl

/-- One parser step at an opening quote. -/
theorem parseVal_str (f : Nat) (X : List Nat) :
    parseVal (f + 1) (34 :: X)
      = (parseStrBody f X).map (fun p => (Json.jstr p.1, p.2)) := rfl

/-- One parser step at a number start. -/
theorem parseVal_num (f c : Nat) (X : List Nat) (h : isNumStartCp c = true) :
    parseVal (f + 1) (c :: X)
      = (parseNum (c :: X)).map (fun p => (Json.jnum p.1, p.2)) := by
  simp only [parseVal]
  rw [skipWs_cons_neg c X (isNumStart_not_ws c h)]
  exact if_pos h

/-- One parser step at an opening bracket. -/
theorem parseVal_arr (f : Nat) (X : List Nat) :
    parseVal (f + 1) (91 :: X)
      = (match skipWs X with
         | 93 :: r2 => some (Json.jarr [], r2)
         | _ => (parseItems f X).map (fun p => (Json.jarr p.1, p.2))) := rfl

/-- One parser step at an opening brace. -/
theorem parseVal_obj (f : Nat) (X : List Nat) :
    parseVal (f + 1) (123 :: X)
      = (match skipWs X with
         | 125 :: r2 => some (Json.jobj [], r2)
         | _ => (parseFields f X).map (fun p => (Json.jobj p.1, p.2))) := rfl

/-- The first character of a printed value: never whitespace, never a
closing delimiter or separator. -/
theorem printVal_head (v : Json) :
    ∃ c t, printVal v = c :: t ∧ isWsCp c = false ∧ c ≠ 93 ∧ c ≠ 125 := by
  cases v with
  | jnull => exact ⟨110, _, rfl, by decide, by decide, by decide⟩
  | jbool b =>
    cases b
    · exact ⟨102, _, rfl, by decide, by decide, by decide⟩
    · exact ⟨116, _, rfl, by decide, by decide, by decide⟩
  | jnum i =>
    show ∃ c t, printInt i = c :: t ∧ _
    unfold printInt
    split
    · exact ⟨45, _, rfl, by decide, by decide, by decide⟩
    · obtain ⟨c, t, hct⟩ : ∃ c t, printNat i.natAbs = c :: t := by
        cases h : printNat i.natAbs with
        | nil => exact absurd h (printNat_ne_nil _)
        | cons c t => exact ⟨c, t, rfl⟩
      have hr := printNat_digitRange i.natAbs c (by rw [hct]; simp)
      refine ⟨c, t, hct, ?_, by omega, by omega⟩
      simp only [isWsCp, Bool.or_eq_false_iff, decide_eq_false_iff_not]
      omega
  | jstr s => exact ⟨34, _, rfl, by decide, by decide, by decide⟩
  | jarr l => exact ⟨91, _, rfl, by decide, by decide, by decide⟩
  | jobj l => exact ⟨123, _, rfl, by decide, by decide, by decide⟩

/-- Printed values absorb no leading whitespace skip. -/
theorem skipWs_printVal_append (v : Json) (rest : List Nat) :
    skipWs (printVal v ++ rest) = printVal v ++ rest := by
  obtain ⟨c, t, hct, hws, _, _⟩ := printVal_head v
  rw [hct, List.cons_append, skipWs_cons_neg _ _ hws]

/-- Printed item lists absorb no leading whitespace skip. -/
theorem skipWs_printItems_append (x : Json) (xs : List Json) (rest : List Nat) :
    skipWs (printItems (x :: xs) ++ rest) = printItems (x :: xs) ++ rest := by
  cases xs with
  | nil => simpa [printItems] using skipWs_printVal_append x rest
  | cons y t =>
    have h := skipWs_printVal_append x (44 :: 32 :: (printItems (y :: t) ++ rest))
    show skipWs ((printVal x ++ 44 :: 32 :: printItems (y :: t)) ++ rest)
        = (printVal x ++ 44 :: 32 :: printItems (y :: t)) ++ rest
    rw [List.append_assoc]
    exact h

/-- Printed field lists absorb no leading whitespace skip. -/
theorem skipWs_printFields_append (kv : List Nat × Json)
    (t : List (List Nat × Json)) (rest : List Nat) :
    skipWs (printFields (kv :: t) ++ rest) = printFields (kv :: t) ++ rest := by
  obtain ⟨k, v⟩ := kv
  cases t with
  | nil =>
    simp only [printFields, printStr, List.cons_append, List.append_assoc]
    rw [skipWs_cons_neg _ _ (by decide)]
  | cons kv2 t2 =>
    simp only [printFields, printStr, List.cons_append, List.append_assoc]
    rw [skipWs_cons_neg _ _ (by decide)]

/-- A printed integer starts with a number-start character. -/
theorem printInt_head (i : Int) :
    ∃ c t, printInt i = c :: t ∧ isNumStartCp c = true := by
  unfold printInt
  split
  · exact ⟨45, _, rfl, by decide⟩
  · obtain ⟨c, t, hct⟩ : ∃ c t, printNat i.natAbs = c :: t := by
      cases h : printNat i.natAbs with
      | nil => exact absurd h (printNat_ne_nil _)
      | cons c t => exact ⟨c, t, rfl⟩
    have hr := printNat_digitRange i.natAbs c (by rw [hct]; simp)
    refine ⟨c, t, hct, ?_⟩
    simp only [isNumStartCp, isDigitCp, Bool.or_eq_true, Bool.and_eq_true,
      decide_eq_true_eq]
    omega

/-- Every parse cost is at least one. -/
theorem costV_pos (v : Json) : 1 ≤ costV v := by
  cases v <;> simp only [costV] <;> omega

/-- The cost of a nonempty item list is at least one. -/
theorem costItems_pos (x : Json) (xs : List Json) : 1 ≤ costItems (x :: xs) := by
  simp only [costItems]
  omega

/-- The cost of a nonempty field list is at least one. -/
theorem costFields_pos (kv : List Nat × Json) (t : List (List Nat × Json)) :
    1 ≤ costFields (kv :: t) := by
  obtain ⟨k, v⟩ := kv
  simp only [costFields]
  omega

set_option maxHeartbeats 1600000 in
/-- The parser reads back exactly what the printer produced, for values,
item lists and field lists, at any sufficient fuel. -/
theorem parse_print_main : ∀ f : Nat,
    (∀ s v rest, Json.wf v = true → costV v ≤ f → SepOk rest →
      skipWs s = printVal v ++ rest → parseVal f s = some (v, rest)) ∧
    (∀ s l rest, wfItems l = true → l ≠ [] → costItems l ≤ f →
      skipWs s = printItems l ++ 93 :: rest → parseItems f s = some (l, rest)) ∧
    (∀ s fl rest, wfFields fl = true → fl ≠ [] → costFields fl ≤ f →
      skipWs s = printFields fl ++ 125 :: rest →
        parseFields f s = some (fl, rest)) := by
  intro f
  induction f with
  | zero =>
    refine ⟨?_, ?_, ?_⟩
    · intro s v rest _ hcost _ _
      exact absurd hcost (by have := costV_pos v; omega)
    · intro s l rest _ hne hcost _
      cases l with
      | nil => exact absurd rfl hne
      | cons x xs => exact absurd hcost (by have := costItems_pos x xs; omega)
    · intro s fl rest _ hne hcost _
      cases fl with
      | nil => exact absurd rfl hne
      | cons kv t => exact absurd hcost (by have := costFields_pos kv t; omega)
  | succ f ih =>
    obtain ⟨ihP, ihQ, ihR⟩ := ih
    refine ⟨?_, ?_, ?_⟩
    · -- values
      intro s v rest hwf hcost hsep hskip
      rw [parseVal_eq_skip f s, hskip]
      cases v with
      | jnull => exact parseVal_null f rest
      | jbool b =>
        cases b
        · exact parseVal_false f rest
        · exact parseVal_true f rest
      | jnum i =>
        obtain ⟨c, t, hct, hstart⟩ := printInt_head i
        rw [show printVal (Json.jnum i) ++ rest = c :: (t ++ rest) from by
          show printInt i ++ rest = c :: (t ++ rest)
          rw [hct, List.cons_append]]
        rw [parseVal_num f c _ hstart]
        rw [show (c :: (t ++ rest) : List Nat) = printInt i ++ rest from by
          rw [hct, List.cons_append]]
        rw [parseNum_printInt i rest hsep]
        rfl
      | jstr s0 =>
        rw [show printVal (Json.jstr s0) ++ rest
            = 34 :: (escapeStr s0 ++ 34 :: rest) from by
          simp [printVal, printStr]]
        rw [parseVal_str f _]
        rw [parseStrBody_print s0 f rest hwf
          (by simp only [costV] at hcost; omega)]
        rfl
      | jarr l =>
        rw [show printVal (Json.jarr l) ++ rest
            = 91 :: (printItems l ++ 93 :: rest) from by simp [printVal]]
        rw [parseVal_arr f _]
        cases l with
        | nil => rfl
        | cons x xs =>
          obtain ⟨c, t, hx, hws, h93, _⟩ := printVal_head x
          obtain ⟨T, hT⟩ : ∃ T, printItems (x :: xs) ++ 93 :: rest = c :: T := by
            cases xs with
            | nil => exact ⟨t ++ 93 :: rest, by simp [printItems, hx]⟩
            | cons y ys =>
              exact ⟨t ++ 44 :: 32 :: printItems (y :: ys) ++ 93 :: rest, by
                simp [printItems, hx]⟩
          rw [hT, skipWs_cons_neg _ _ hws]
          split
          · rename_i r2 heq
            injection heq with h1 _
            exact absurd h1 h93
          · rw [ihQ (c :: T) (x :: xs) rest hwf (by simp)
              (by simp only [costV] at hcost; omega)
              (by rw [skipWs_cons_neg _ _ hws, ← hT])]
            rfl
      | jobj fl =>
        rw [show printVal (Json.jobj fl) ++ rest
            = 123 :: (printFields fl ++ 125 :: rest) from by simp [printVal]]
        rw [parseVal_obj f _]
        cases fl with
        | nil => rfl
        | cons kv t =>
          obtain ⟨T, hT⟩ : ∃ T, printFields (kv :: t) ++ 125 :: rest
              = 34 :: T := by
            obtain ⟨k, v0⟩ := kv
            cases t with
            | nil =>
              exact ⟨escapeStr k ++ 34 :: 58 :: 32 :: printVal v0 ++ 125 :: rest,
                by simp [printFields, printStr]⟩
            | cons kv2 t2 =>
              exact ⟨escapeStr k ++ 34 :: 58 :: 32 :: printVal v0 ++
                  44 :: 32 :: printFields (kv2 :: t2) ++ 125 :: rest,
                by simp [printFields, printStr]⟩
          rw [hT]
          split
          · rename_i r2 heq
            injection heq with h1 _
            cases h1
          · rw [ihR (34 :: T) (kv :: t) rest hwf (by simp)
              (by simp only [costV] at hcost; omega)
              (by rw [skipWs_cons_neg _ _ (by decide), ← hT])]
            rfl
    · -- item lists
      intro s l rest hwf hne hcost hskip
      cases l with
      | nil => exact absurd rfl hne
      | cons x xs =>
        have hwfx : Json.wf x = true ∧ wfItems xs = true := by
          simpa [wfItems, Bool.and_eq_true] using hwf
        cases xs with
        | nil =>
          have h1 : parseVal f s = some (x, 93 :: rest) :=
            ihP s x (93 :: rest) hwfx.1
              (by simp only [costItems] at hcost; omega) rfl
              (by rw [hskip]; simp [printItems])
          simp only [parseItems]
          rw [h1]
          rfl
        | cons y t =>
          have h1 : parseVal f s
              = some (x, 44 :: 32 :: (printItems (y :: t) ++ 93 :: rest)) :=
            ihP s x _ hwfx.1
              (by simp only [costItems] at hcost; omega) rfl
              (by rw [hskip]; simp [printItems])
          have h2 : parseItems f (32 :: (printItems (y :: t) ++ 93 :: rest))
              = some (y :: t, rest) :=
            ihQ _ (y :: t) rest hwfx.2 (by simp)
              (by simp only [costItems] at hcost ⊢; omega)
              (by rw [skipWs_cons_space]
                  exact skipWs_printItems_append y t _)
          simp only [parseItems]
          rw [h1]
          show (parseItems f (32 :: (printItems (y :: t) ++ 93 :: rest))).map
              (fun p => (x :: p.1, p.2)) = some (x :: y :: t, rest)
          rw [h2]
          rfl
    · -- field lists
      intro s fl rest hwf hne hcost hskip
      cases fl with
      | nil => exact absurd rfl hne
      | cons kv t =>
        obtain ⟨k, v0⟩ := kv
        have hwfk : wfStr k = true ∧ Json.wf v0 = true ∧ wfFields t = true := by
          simpa [wfFields, Bool.and_eq_true, and_assoc] using hwf
        cases t with
        | nil =>
          have hs : skipWs s
              = 34 :: (escapeStr k ++ 34 :: (58 :: 32 ::
                  (printVal v0 ++ 125 :: rest))) := by
            rw [hskip]
            simp [printFields, printStr]
          have hk : parseStrBody f (escapeStr k ++ 34 ::
              (58 :: 32 :: (printVal v0 ++ 125 :: rest)))
              = some (k, 58 :: 32 :: (printVal v0 ++ 125 :: rest)) :=
            parseStrBody_print k f _ hwfk.1
              (by simp only [costFields] at hcost; omega)
          have hv : parseVal f (32 :: (printVal v0 ++ 125 :: rest))
              = some (v0, 125 :: rest) :=
            ihP _ v0 _ hwfk.2.1
              (by simp only [costFields] at hcost; omega) rfl
              (by rw [skipWs_cons_space]
                  exact skipWs_printVal_append v0 _)
          simp only [parseFields]
          rw [hs]
          show (match parseStrBody f (escapeStr k ++ 34 :: 58 :: 32 ::
              (printVal v0 ++ 125 :: rest)) with
            | none => none
            | some (k1, r2) =>
              match skipWs r2 with
              | 58 :: r3 =>
                match parseVal f r3 with
                | none => none
                | some (v, r4) =>
                  match skipWs r4 with
                  | 44 :: r5 => (parseFields f r5).map
                      (fun p => ((k1, v) :: p.1, p.2))
                  | 125 :: r5 => some ([(k1, v)], r5)
                  | _ => none
              | _ => none) = some ([(k, v0)], rest)
          rw [hk]
          show (match parseVal f (32 :: (printVal v0 ++ 125 :: rest)) with
            | none => none
            | some (v, r4) =>
              match skipWs r4 with
              | 44 :: r5 => (parseFields f r5).map
                  (fun p => ((k, v) :: p.1, p.2))
              | 125 :: r5 => some ([(k, v)], r5)
              | _ => none) = some ([(k, v0)], rest)
          rw [hv]
          rfl
        | cons kv2 t2 =>
          have hs : skipWs s
              = 34 :: (escapeStr k ++ 34 :: (58 :: 32 ::
                  (printVal v0 ++ 44 :: 32 ::
                    (printFields (kv2 :: t2) ++ 125 :: rest)))) := by
            rw [hskip]
            obtain ⟨k2, u2⟩ := kv2
            simp [printFields, printStr]
          have hk : parseStrBody f (escapeStr k ++ 34 ::
              (58 :: 32 :: (printVal v0 ++ 44 :: 32 ::
                (printFields (kv2 :: t2) ++ 125 :: rest))))
              = some (k, 58 :: 32 :: (printVal v0 ++ 44 :: 32 ::
                  (printFields (kv2 :: t2) ++ 125 :: rest))) :=
            parseStrBody_print k f _ hwfk.1
              (by simp only [costFields] at hcost; omega)
          have hv : parseVal f (32 :: (printVal v0 ++ 44 :: 32 ::
              (printFields (kv2 :: t2) ++ 125 :: rest)))
              = some (v0, 44 :: 32 ::
                  (printFields (kv2 :: t2) ++ 125 :: rest)) :=
            ihP _ v0 _ hwfk.2.1
              (by simp only [costFields] at hcost; omega) rfl
              (by rw [skipWs_cons_space]
                  exact skipWs_printVal_append v0 _)
          have hrec : parseFields f (32 ::
              (printFields (kv2 :: t2) ++ 125 :: rest))
              = some (kv2 :: t2, rest) :=
            ihR _ (kv2 :: t2) rest hwfk.2.2 (by simp)
              (by simp only [costFields] at hcost ⊢; omega)
              (by rw [skipWs_cons_space]
                  exact skipWs_printFields_append kv2 t2 _)
          simp only [parseFields]
          rw [hs]
          show (match parseStrBody f (escapeStr k ++ 34 :: 58 :: 32 ::
              (printVal v0 ++ 44 :: 32 ::
                (printFields (kv2 :: t2) ++ 125 :: rest))) with
            | none => none
            | some (k1, r2) =>
              match skipWs r2 with
              | 58 :: r3 =>
                match parseVal f r3 with
                | none => none
                | some (v, r4) =>
                  match skipWs r4 with
                  | 44 :: r5 => (parseFields f r5).map
                      (fun p => ((k1, v) :: p.1, p.2))
                  | 125 :: r5 => some ([(k1, v)], r5)
                  | _ => none
              | _ => none) = some ((k, v0) :: kv2 :: t2, rest)
          rw [hk]
          show (match parseVal f (32 :: (printVal v0 ++ 44 :: 32 ::
              (printFields (kv2 :: t2) ++ 125 :: rest))) with
            | none => none
            | some (v, r4) =>
              match skipWs r4 with
              | 44 :: r5 => (parseFields f r5).map
                  (fun p => ((k, v) :: p.1, p.2))
              | 125 :: r5 => some ([(k, v)], r5)
              | _ => none) = some ((k, v0) :: kv2 :: t2, rest)
          rw [hv]
          show (parseFields f (32 :: (printFields (kv2 :: t2) ++ 125 :: rest))).map
              (fun p => ((k, v0) :: p.1, p.2)) = some ((k, v0) :: kv2 :: t2, rest)
          rw [hrec]
          rfl

set_option maxHeartbeats 1600000 in
/-- Escaping a character produces at least one character. -/
theorem escapeCp_len_pos (c : Nat) : 1 ≤ (escapeCp c).length := by
  unfold escapeCp
  split_ifs <;> simp [hex4]

/-- Escaping never shortens a string. -/
theorem escapeStr_len (s : List Nat) : s.length ≤ (escapeStr s).length := by
  induction s with
  | nil => simp [escapeStr]
  | cons c t ih =>
    have h := escapeCp_len_pos c
    simp only [escapeStr, List.flatMap_cons, List.length_append,
      List.length_cons]
    simp only [escapeStr] at ih
    omega

mutual

/-- Parsing cost is bounded by printed length (values). -/
theorem costV_le_printVal : ∀ v : Json, costV v ≤ (printVal v).length
  | Json.jnull => by simp [costV, printVal]
  | Json.jbool true => by simp [costV, printVal]
  | Json.jbool false => by simp [costV, printVal]
  | Json.jnum i => by
    simp only [costV, printVal]
    unfold printInt
    split
    · simp
    · exact Nat.one_le_iff_ne_zero.mpr
        (by simpa [List.length_eq_zero] using printNat_ne_nil i.natAbs)
  | Json.jstr s => by
    have h := escapeStr_len s
    simp only [costV, printVal, printStr, List.length_cons, List.length_append,
      List.length_singleton]
    omega
  | Json.jarr l => by
    have h := costItems_le_printItems l
    simp only [costV, printVal, List.length_cons, List.length_append,
      List.length_singleton]
    omega
  | Json.jobj l => by
    have h := costFields_le_printFields l
    simp only [costV, printVal, List.length_cons, List.length_append,
      List.length_singleton]
    omega

/-- Parsing cost is bounded by printed length (item lists). -/
theorem costItems_le_printItems : ∀ l : List Json,
    costItems l ≤ (printItems l).length + 1
  | [] => by simp [costItems, printItems]
  | [x] => by
    have h := costV_le_printVal x
    simp only [costItems, costV, printItems, List.length_nil]
    omega
  | x :: y :: t => by
    have h1 := costV_le_printVal x
    have h2 := costItems_le_printItems (y :: t)
    simp only [costItems, printItems, List.length_append, List.length_cons]
    simp only [costItems, printItems] at h2
    omega

/-- Parsing cost is bounded by printed length (field lists). -/
theorem costFields_le_printFields : ∀ fl : List (List Nat × Json),
    costFields fl ≤ (printFields fl).length + 1
  | [] => by simp [costFields, printFields]
  | [(k, v)] => by
    have h1 := costV_le_printVal v
    have h2 := escapeStr_len k
    simp only [costFields, costV, printFields, printStr, List.length_append,
      List.length_cons, List.length_singleton, List.length_nil]
    omega
  | (k, v) :: kv2 :: t => by
    have h1 := costV_le_printVal v
    have h2 := costFields_le_printFields (kv2 :: t)
    have h3 := escapeStr_len k
    simp only [costFields, printFields, printStr, List.length_append,
      List.length_cons, List.length_singleton]
    simp only [costFields, printFields] at h2
    omega

end

/-- `json.loads` inverts `json.dumps` on well-formed values. -/
theorem jsonLoads_printVal (v : Json) (hwf : Json.wf v = true) :
    jsonLoads (printVal v) = some v := by
  unfold jsonLoads
  have hcost : costV v ≤ (printVal v).length + 1 :=
    le_trans (costV_le_printVal v) (by omega)
  have hmain := (parse_print_main ((printVal v).length + 1)).1 (printVal v) v []
    hwf hcost trivial (by simpa using skipWs_printVal_append v [])
  rw [hmain]
  rfl

/-- C8: A frame assembled by `_create_message` and serialised by `_send`
via `json.dumps` is decoded by `_listen`'s `json.loads` into an object
from which `_handle_message` reads back exactly the original `cmd`,
`opcode` and `payload`. -/
theorem frame_codec_roundtrip (fr : Frame) (hwf : Json.wf fr.payload = true) :
    decodeFrameFields (encodeFrame fr)
      = some (Json.jnum fr.cmd, Json.jnum fr.opcode, fr.payload) := by
  have hwfF : Json.wf (frameJson fr) = true := by
    simp only [frameJson, Json.wf, wfFields, hwf, Bool.and_true, Bool.true_and]
    decide
  have hload : jsonLoads (encodeFrame fr) = some (frameJson fr) :=
    jsonLoads_printVal (frameJson fr) hwfF
  unfold decodeFrameFields
  rw [hload]
  rfl

/-- Concrete instance of the C8 roundtrip: a `LOGIN`-style frame with a
small object payload decodes back to its own `cmd`, `opcode`, `payload`. -/
theorem frame_codec_roundtrip_witness :
    Json.wf (Json.jobj [(cp "token", Json.jstr (cp "abc"))]) = true ∧
    decodeFrameFields (encodeFrame ⟨11, 0, 1, 19,
        Json.jobj [(cp "token", Json.jstr (cp "abc"))]⟩)
      = some (Json.jnum 0, Json.jnum 19,
              Json.jobj [(cp "token", Json.jstr (cp "abc"))]) :=
  ⟨by decide, frame_codec_roundtrip
    ⟨11, 0, 1, 19, Json.jobj [(cp "token", Json.jstr (cp "abc"))]⟩ (by decide)⟩

end MaxClient
